import Mathlib

/-!
Shallow embedding of the AMP video manager (`src/src/service/video-manager-impl.js`,
second/canonical variant, lines 1400-2926) in Lean 4.

Numbers are modelled as rationals (`ℚ`); the "not a finite number" case of an
intersection ratio is modelled as `Option ℚ` with `none` for NaN/Infinity.
DOM effects are modelled as explicit fields of the state (CSS class presence,
inline style attribute as an association list, controls visibility) or as
returned effect lists (registered actions).
-/

namespace VideoManagerImpl

/-- `VISIBILITY_PERCENT` (line 47). -/
def VISIBILITY_PERCENT : ℚ := 75

/-- `DOCK_SCALE` (line 52). -/
def DOCK_SCALE : ℚ := 6/10

/-- `DOCK_CLASS` (line 53). -/
def DOCK_CLASS : String := "i-amphtml-dockable-video-minimizing"

/-- `DOCK_MARGIN` (line 54). -/
def DOCK_MARGIN : ℚ := 20

/-- `FRICTION_COEFF` (line 59). -/
def FRICTION_COEFF : ℚ := 65/100

/-- `STOP_THRESHOLD` (line 60). -/
def STOP_THRESHOLD : ℚ := 10

/-- `PlayingStates` (lines 1403-1431). -/
inductive PlayingState where
  | PLAYING_MANUAL
  | PLAYING_AUTO
  | PAUSED
  deriving Repr, DecidableEq

/-- `MinimizePositions` of the canonical variant (lines 1441-1447).
The comparisons against `MinimizePositions.DEFAULT` / `.INVIEW` in `drag_`
(lines 2376-2377) refer to keys of the *other* variant's enum that do not
exist on this object; in JavaScript they evaluate to `undefined` and the
equality with a string member of this enum is always false, so they are
omitted from the embedded guard. -/
inductive MinimizePosition where
  | INLINE
  | TOP_LEFT
  | BOTTOM_LEFT
  | TOP_RIGHT
  | BOTTOM_RIGHT
  deriving Repr, DecidableEq

/-- `DockingStates` (lines 1457-1461). -/
inductive DockingState where
  | INLINE
  | DOCKING
  | DOCKED
  deriving Repr, DecidableEq

/-- `RelativePositions` from the position observer collaborator. -/
inductive RelativePos where
  | INSIDE
  | TOP
  | BOTTOM
  deriving Repr, DecidableEq

/-- A layout rectangle (`ClientRect` / `layoutRectLtwh`). -/
structure Rect where
  left : ℚ
  top : ℚ
  width : ℚ
  height : ℚ
  deriving Repr, DecidableEq

/-- `rect.bottom` of a layout rectangle. -/
def Rect.bottom (r : Rect) : ℚ := r.top + r.height

/-- A 2d point/vector, used for the drag coordinates. -/
structure Vec2 where
  x : ℚ
  y : ℚ
  deriving Repr, DecidableEq

/-- `PositionInViewportEntryDef` delivered by the position observer:
`relativePos`, `positionRect` (null while fully off screen) and
`viewportRect`. -/
structure PosEntry where
  relativePos : RelativePos
  positionRect : Option Rect
  viewportRect : Rect
  deriving Repr, DecidableEq

/-- `this.dragCoordinates_` (lines 1780-1787). -/
structure DragCoordinates where
  mouse : Vec2
  displacement : Vec2
  initial : Vec2
  position : Vec2
  previous : Vec2
  velocity : Vec2
  deriving Repr, DecidableEq

/-- The zero drag coordinates used at construction. -/
def DragCoordinates.zero : DragCoordinates :=
  ⟨⟨0, 0⟩, ⟨0, 0⟩, ⟨0, 0⟩, ⟨0, 0⟩, ⟨0, 0⟩, ⟨0, 0⟩⟩

/-- Ambient DOM geometry read during one handler run: viewport dimensions,
document scroll height, the element's offset geometry, and the current
bounding rectangles of the internal element (`minimizedRect`) and of the
video element (`inlineRect`).  These are the values the source obtains from
the viewport service and from `getBoundingClientRect` calls. -/
structure Env where
  viewportWidth : ℚ
  viewportHeight : ℚ
  scrollHeight : ℚ
  offsetTop : ℚ
  offsetHeight : ℚ
  minimizedRect : Rect
  inlineRect : Rect
  deriving Repr, DecidableEq

/-- The inline style attribute of an element, as an ordered association list
of CSS property/value pairs. -/
abbrev StyleAttr : Type := List (String × String)

/-- `setStyle`: update one property of an inline style, keeping the position
of an existing property and appending a new one. -/
def setStyle (s : StyleAttr) (k v : String) : StyleAttr :=
  if (List.any s (fun p => p.1 == k)) then
    List.map (fun p => if p.1 == k then (k, v) else p) s
  else
    s ++ [(k, v)]

/-- `st.setStyles`: apply a batch of style updates in order. -/
def setStyles (s : StyleAttr) (l : List (String × String)) : StyleAttr :=
  List.foldl (fun acc p => setStyle acc p.1 p.2) s l

/-- `st.px`. -/
def stPx (q : ℚ) : String := toString q ++ "px"

/-- `st.translate` with two arguments. -/
def stTranslate (x y : String) : String :=
  "translate(" ++ x ++ ", " ++ y ++ ")"

/-- `st.scale`. -/
def stScale (q : ℚ) : String := "scale(" ++ toString q ++ ")"

/-- Modelled from the spec: `mapRange` is imported from `../utils/math`,
which is not among the provided source files.  The spec describes the
transform computation as "the linear map of `visibleHeightPx` from
[0, initialHeight] to [dockScale, 1]", so `mapRange val min1 max1 min2 max2`
is the linear map sending `min1 ↦ min2` and `max1 ↦ max2`. -/
def mapRange (val min1 max1 min2 max2 : ℚ) : ℚ :=
  min2 + (val - min1) * (max2 - min2) / (max1 - min1)

/-- `VideoEntry.scrollMap_` (lines 2061-2071), as a pure function of the
entry's `visibleHeight_` and `initialRect_.height`. -/
def scrollMap (visibleHeight initialHeight lo hi : ℚ) (reverse : Bool) : ℚ :=
  if reverse then
    mapRange visibleHeight initialHeight 0 lo hi
  else
    mapRange visibleHeight 0 initialHeight lo hi

/-- The scale factor applied while docking:
`scrollMap_(DOCK_SCALE, 1)` (lines 2275 and 2288). -/
def dockTransformScale (visibleHeight initialHeight : ℚ) : ℚ :=
  scrollMap visibleHeight initialHeight DOCK_SCALE 1 false

/-- The measure step of `VideoEntry.updateVisibility` (lines 2732-2738):
a non-finite intersection ratio (modelled as `none`) counts as 0, otherwise
`visiblePercent = ratio * 100`, and the video is visible when
`visiblePercent >= VISIBILITY_PERCENT`. -/
def computeVisible (intersectionRatioQ : Option ℚ) : Bool :=
  let visiblePercent : ℚ :=
    match intersectionRatioQ with
    | none => 0
    | some r => r * 100
  decide (visiblePercent ≥ VISIBILITY_PERCENT)

/-- `VideoEntry.calcSnapCorner_` (lines 2513-2531): the four-quadrant test
comparing the element's center to the viewport's center.  The source writes
the result into `this.minimizePosition_`; the nested `if`/`else if`
conditions are exhaustive over the rational order, so this is the total
function it computes. -/
def calcSnapCorner (posX posY rectW rectH vpW vpH : ℚ) : MinimizePosition :=
  let viewportCenterX := vpW / 2
  let viewportCenterY := vpH / 2
  let centerX := posX + rectW / 2
  let centerY := posY + rectH / 2
  if centerX ≥ viewportCenterX then
    if centerY ≥ viewportCenterY then MinimizePosition.BOTTOM_RIGHT
    else MinimizePosition.TOP_RIGHT
  else
    if centerY ≥ viewportCenterY then MinimizePosition.BOTTOM_LEFT
    else MinimizePosition.TOP_LEFT

/-- The part of the video element handed to `register` that the embedding
needs: an identity (lookup in `getEntryForVideo_` is by object identity,
modelled as a numeric id) and the capability/attribute flags the constructor
reads. -/
structure VideoSpec where
  id : Nat
  supportsPlatform : Bool
  hasDocking : Bool
  hasAutoplay : Bool
  deriving Repr, DecidableEq

/-- `VideoEntry` state (constructor, lines 1682-1807).  DOM facts are
explicit fields: `hasInternalElement` (the `video, iframe` child found by
`videoLoaded`), `internalHasDockClass` (presence of `DOCK_CLASS` on it),
`internalStyle` (its inline style attribute), `controlsShown`
(`showControls`/`hideControls` on the video interface), `draggingMask`
(presence of the dragging mask element), `listenersAttached` (the
`listen(...)` calls of `initializeDragging_` were made; the source never
unsubscribes them).  `dragLoopScheduled` records that a `drag_` re-run was
enqueued on the vsync mutate phase.  `pendingSnap` records an in-flight
`animateSnap_` whose completion callback has not yet run.
Session managers, analytics and the autoplay capability probe perform no
state changes relevant to the claims and are not modelled. -/
structure VideoEntry where
  videoId : Nat
  loaded : Bool
  isPlaying : Bool
  isVisible : Bool
  playCalledByAutoplay : Bool
  userInteractedWithAutoPlayFlag : Bool
  hasDocking : Bool
  hasAutoplay : Bool
  hasInternalElement : Bool
  internalHasDockClass : Bool
  internalStyle : StyleAttr
  controlsShown : Bool
  minimizePosition : MinimizePosition
  dockingState : DockingState
  visibleHeight : ℚ
  initialRect : Option Rect
  lastPosition : Option PosEntry
  hasBeenInViewBefore : Bool
  pageDirLtr : Bool
  dragListenerInstalled : Bool
  listenersAttached : Bool
  draggingMask : Bool
  dragLoopScheduled : Bool
  isTouched : Bool
  isDragging : Bool
  isSnapping : Bool
  isDismissed : Bool
  drag : DragCoordinates
  pendingSnap : Option Vec2
  deriving Repr, DecidableEq

/-- `VideoEntry.getPlayingState` (lines 2759-2771). -/
def VideoEntry.getPlayingState (e : VideoEntry) : PlayingState :=
  if e.isPlaying = false then PlayingState.PAUSED
  else if e.isPlaying = true ∧ e.playCalledByAutoplay = true
          ∧ e.userInteractedWithAutoPlayFlag = false then
    PlayingState.PLAYING_AUTO
  else PlayingState.PLAYING_MANUAL

/-- `VideoEntry.userInteractedWithAutoPlay` (lines 2777-2779). -/
def VideoEntry.userInteractedWithAutoPlay (e : VideoEntry) : Bool :=
  e.userInteractedWithAutoPlayFlag

/-- A fresh `VideoEntry` as built by the constructor plus `videoBuilt_`:
everything inline/false/zero; `videoBuilt_` runs `updateVisibility` with the
current intersection ratio, and for a dockable video `dockableVideoBuilt_`
measures `initialRect_` (that initial vsync measurement is folded into
registration here) and reads the page direction. -/
def mkEntry (spec : VideoSpec) (initRect : Rect) (visFrac : Option ℚ)
    (ltr : Bool) : VideoEntry where
  videoId := spec.id
  loaded := false
  isPlaying := false
  isVisible := computeVisible visFrac
  playCalledByAutoplay := false
  userInteractedWithAutoPlayFlag := false
  hasDocking := spec.hasDocking
  hasAutoplay := spec.hasAutoplay
  hasInternalElement := false
  internalHasDockClass := false
  internalStyle := []
  controlsShown := true
  minimizePosition := MinimizePosition.INLINE
  dockingState := DockingState.INLINE
  visibleHeight := 0
  initialRect := if spec.hasDocking then some initRect else none
  lastPosition := none
  hasBeenInViewBefore := false
  pageDirLtr := if spec.hasDocking then ltr else true
  dragListenerInstalled := false
  listenersAttached := false
  draggingMask := false
  dragLoopScheduled := false
  isTouched := false
  isDragging := false
  isSnapping := false
  isDismissed := false
  drag := DragCoordinates.zero
  pendingSnap := none

/-- `VideoManager` state (constructor, lines 1475-1494): the entry list is
`null` until the first successful registration, and at most one docked
entry is referenced by index into the list. -/
structure VideoManager where
  entries : Option (List VideoEntry)
  dockedVideo : Option Nat
  deriving Repr, DecidableEq

/-- The manager constructed for a document. -/
def initManager : VideoManager := ⟨none, none⟩

/-- Entry at index `i` of the manager's list (`this.entries_[i]`). -/
def entryAt (m : VideoManager) (i : Nat) : Option VideoEntry :=
  match m.entries with
  | none => none
  | some l => l[i]?

/-- Replace the entry at index `i` (mutation of `this.entries_[i]`'s
fields). -/
def setEntry (m : VideoManager) (i : Nat) (e : VideoEntry) : VideoManager :=
  { m with entries := Option.map (fun l => l.set i e) m.entries }

/-- Apply an update function to the entry at index `i`, if present. -/
def updateEntry (m : VideoManager) (i : Nat) (f : VideoEntry → VideoEntry) :
    VideoManager :=
  match entryAt m i with
  | none => m
  | some e => setEntry m i (f e)

/-- `VideoManager.canDock` (lines 1650-1652):
`!this.dockedVideo_ || this.dockedVideo_ == entry`. -/
def canDock (m : VideoManager) (i : Nat) : Prop :=
  m.dockedVideo = none ∨ m.dockedVideo = some i

instance (m : VideoManager) (i : Nat) : Decidable (canDock m i) := by
  unfold canDock
  infer_instance

/-- `VideoManager.registerDocked` (lines 1659-1661). -/
def registerDocked (m : VideoManager) (i : Nat) : VideoManager :=
  { m with dockedVideo := some i }

/-- `VideoManager.unregisterDocked` (lines 1666-1671): clears the docked
slot and resets every entry's `hasBeenInViewBefore`. -/
def unregisterDocked (m : VideoManager) : VideoManager :=
  { m with
    dockedVideo := none
    entries := Option.map
      (List.map fun e => { e with hasBeenInViewBefore := false }) m.entries }

/-- The per-entry effect of `initializeDocking_` (lines 2230-2240): add
`DOCK_CLASS`, hide the controls, freeze the initial dimensions as inline
styles and move to `DOCKING`. -/
def initializeDockingEntry (e : VideoEntry) : VideoEntry :=
  let ir := e.initialRect.getD ⟨0, 0, 0, 0⟩
  let st1 := setStyles e.internalStyle
    [("height", stPx ir.height),
     ("width", stPx ir.width),
     ("maxWidth", stPx ir.width)]
  { e with
    internalHasDockClass := true
    controlsShown := false
    internalStyle := st1
    dockingState := DockingState.DOCKING }

/-- `VideoEntry.initializeDocking_` (lines 2230-2240): update the entry and
take the manager's docked slot (`registerDocked`). -/
def initializeDocking (m : VideoManager) (i : Nat) : VideoManager :=
  registerDocked (updateEntry m i initializeDockingEntry) i

/-- `VideoEntry.finishDocking_` (lines 2304-2312): remove `DOCK_CLASS`,
clear the inline style attribute entirely (`setAttribute('style', '')`),
return to `INLINE`, show the controls, release the manager's docked slot
(which also resets every entry's `hasBeenInViewBefore`), and reset
`dragListenerInstalled_`. -/
def finishDockingEntry (e : VideoEntry) : VideoEntry :=
  { e with
    internalHasDockClass := false
    internalStyle := []
    dockingState := DockingState.INLINE
    controlsShown := true }

/-- `VideoEntry.finishDocking_` applied to the manager (see
`finishDockingEntry` for the per-entry part): restore the entry, release
the docked slot (resetting every entry's `hasBeenInViewBefore`), and reset
`dragListenerInstalled_`. -/
def finishDocking (m : VideoManager) (i : Nat) : VideoManager :=
  let m1 := updateEntry m i finishDockingEntry
  let m2 := unregisterDocked m1
  updateEntry m2 i fun e => { e with dragListenerInstalled := false }

/-- The per-entry effect of `initializeDragging_` (lines 2314-2365): a
no-op when the listeners are already installed; otherwise seed the drag
coordinates from the minimized rectangle, create the dragging mask and
attach the pointer listeners (never detached by the source). -/
def installDrag (e : VideoEntry) (env : Env) : VideoEntry :=
  if e.dragListenerInstalled = true then e
  else
    let r := env.minimizedRect
    let dc := { e.drag with
      initial := (⟨r.left, r.top⟩ : Vec2)
      position := (⟨r.left, r.top⟩ : Vec2)
      previous := (⟨r.left, r.top⟩ : Vec2) }
    { e with
      drag := dc
      draggingMask := true
      listenersAttached := true
      dragListenerInstalled := true }

/-- `VideoEntry.initializeDragging_` applied to the manager's entry. -/
def initializeDragging (m : VideoManager) (i : Nat) (env : Env) :
    VideoManager :=
  updateEntry m i fun e => installDrag e env

/-- `VideoEntry.calcDockOffsetXLeft` (lines 2537-2539). -/
def calcDockOffsetXLeft (visibleHeight : ℚ) (ir : Rect) : ℚ :=
  scrollMap visibleHeight ir.height ir.left DOCK_MARGIN true

/-- `VideoEntry.calcDockOffsetXRight` (lines 2545-2557). -/
def calcDockOffsetXRight (visibleHeight : ℚ) (ir : Rect) (env : Env) : ℚ :=
  let initialRight := env.viewportWidth - ir.left - ir.width
  let scaledWidth := DOCK_SCALE * ir.width
  scrollMap visibleHeight ir.height
    (env.viewportWidth - ir.width - initialRight)
    (env.viewportWidth - scaledWidth - DOCK_MARGIN) true

/-- `VideoEntry.calcDockOffsetYTop` (lines 2563-2567). -/
def calcDockOffsetYTop (visibleHeight : ℚ) (ir : Rect) (env : Env) : ℚ :=
  let inlineTop := if env.inlineRect.top < 0 then 0 else env.inlineRect.top
  scrollMap visibleHeight ir.height inlineTop DOCK_MARGIN true

/-- `VideoEntry.calcDockOffsetYBottom` (lines 2573-2585). -/
def calcDockOffsetYBottom (visibleHeight : ℚ) (ir : Rect) (env : Env) : ℚ :=
  let maxTop := env.viewportHeight - ir.height
  let inlineTop :=
    if env.inlineRect.top > maxTop then maxTop else env.inlineRect.top
  let scaledHeight := DOCK_SCALE * ir.height
  scrollMap visibleHeight ir.height inlineTop
    (env.viewportHeight - scaledHeight - DOCK_MARGIN) true

/-- `VideoEntry.dragMove_` (lines 2648-2662): write the translate+scale
transform directly. -/
def dragMoveStyles (s : StyleAttr) (pos : Vec2) : StyleAttr :=
  setStyles s
    [("transform",
      stTranslate (stPx pos.x) (stPx pos.y) ++ " " ++ stScale DOCK_SCALE),
     ("transformOrigin", "top left"),
     ("bottom", "auto"),
     ("top", "0px"),
     ("right", "auto"),
     ("left", "0px")]

/-- The snap-to-corner block and final move of `drag_` (lines 2420-2473),
run on the entry whose coordinates were just updated: when free, not
snapping and both axis velocities are at or below `STOP_THRESHOLD`, choose
the snap corner, and if the corner's coordinates differ from the current
position start a 200ms snap animation (modelled as `pendingSnap` plus the
`isSnapping` flag); afterwards, when not snapping, apply the transform
directly; finally re-enqueue the loop on the mutate phase. -/
def snapAndMoveEntry (e : VideoEntry) (env : Env) (rect : Rect) :
    VideoEntry :=
  let e :=
    if e.isDragging = false ∧ e.isSnapping = false
        ∧ |e.drag.velocity.x| ≤ STOP_THRESHOLD
        ∧ |e.drag.velocity.y| ≤ STOP_THRESHOLD then
      let top := DOCK_MARGIN
      let left := DOCK_MARGIN
      let right := env.viewportWidth - rect.width - DOCK_MARGIN
      let bottom := env.viewportHeight - rect.height - DOCK_MARGIN
      let corner := calcSnapCorner e.drag.position.x e.drag.position.y
        rect.width rect.height env.viewportWidth env.viewportHeight
      let e := { e with minimizePosition := corner }
      let newPos : ℚ × ℚ :=
        match e.minimizePosition with
        | MinimizePosition.BOTTOM_RIGHT => (right, bottom)
        | MinimizePosition.TOP_RIGHT => (right, top)
        | MinimizePosition.BOTTOM_LEFT => (left, bottom)
        | MinimizePosition.TOP_LEFT => (left, top)
        | MinimizePosition.INLINE => (e.drag.position.x, e.drag.position.y)
      if e.drag.position.x ≠ newPos.1 ∨ e.drag.position.y ≠ newPos.2 then
        { e with isSnapping := true, pendingSnap := some ⟨newPos.1, newPos.2⟩ }
      else e
    else e
  let e :=
    if e.isSnapping = false then
      { e with internalStyle := dragMoveStyles e.internalStyle e.drag.position }
    else e
  { e with dragLoopScheduled := true }

/-- Write back the entry after the snap/move block of `drag_`. -/
def dragSnapAndMove (m : VideoManager) (i : Nat) (e : VideoEntry)
    (env : Env) (rect : Rect) : VideoManager :=
  setEntry m i (snapAndMoveEntry e env rect)

/-- The dragging-branch update of `drag_` (lines 2386-2404): save the old
position as `previous`, follow the pointer minus the displacement, derive
the velocity, and mark the entry dismissed when the element's center leaves
the viewport. -/
def dragPointerEntry (e : VideoEntry) (env : Env) (rect : Rect) :
    VideoEntry :=
  let prev := e.drag.position
  let pos : Vec2 := ⟨e.drag.mouse.x - e.drag.displacement.x,
                     e.drag.mouse.y - e.drag.displacement.y⟩
  let vel : Vec2 := ⟨pos.x - prev.x, pos.y - prev.y⟩
  let vidCenterX := pos.x + rect.width / 2
  let vidCenterY := pos.y + rect.height / 2
  let dism :=
    if vidCenterX > env.viewportWidth ∨ vidCenterX < 0
        ∨ vidCenterY > env.viewportHeight ∨ vidCenterY < 0 then true
    else e.isDismissed
  let dc := { e.drag with previous := prev, position := pos, velocity := vel }
  { e with drag := dc, isDismissed := dism }

/-- The free-motion update of `drag_` (lines 2405-2410): position is
incremented by the velocity and the velocity is multiplied by
`FRICTION_COEFF` on each axis. -/
def dragFreeEntry (e : VideoEntry) : VideoEntry :=
  let pos : Vec2 := ⟨e.drag.position.x + e.drag.velocity.x,
                     e.drag.position.y + e.drag.velocity.y⟩
  let vel : Vec2 := ⟨e.drag.velocity.x * FRICTION_COEFF,
                     e.drag.velocity.y * FRICTION_COEFF⟩
  let dc := { e.drag with position := pos, velocity := vel }
  { e with drag := dc }

/-- `VideoEntry.drag_` (lines 2372-2474).  The guard comparisons against
`MinimizePositions.DEFAULT`/`.INVIEW` are always false in this variant (see
`MinimizePosition`) and are omitted.  A guard failure simply does not
re-enqueue the loop (`dragLoopScheduled := false`).  `video.pause()` on
dismissal is an external call whose `PAUSE` event is delivered as a separate
machine event. -/
def dragStep (m : VideoManager) (i : Nat) (env : Env) : VideoManager :=
  match entryAt m i with
  | none => m
  | some e =>
    if e.loaded = false ∨ e.hasInternalElement = false
        ∨ e.visibleHeight ≠ 0 ∨ e.internalHasDockClass = false
        ∨ e.dockingState ≠ DockingState.DOCKED then
      setEntry m i { e with dragLoopScheduled := false }
    else if e.isDragging = true then
      dragSnapAndMove m i (dragPointerEntry e env env.minimizedRect) env
        env.minimizedRect
    else
      let e2 := dragFreeEntry e
      if e2.isDismissed = true then
        let m1 := setEntry m i e2
        let m2 := finishDocking m1 i
        updateEntry m2 i fun e3 =>
          { e3 with isDismissed := false, dragLoopScheduled := false }
      else
        dragSnapAndMove m i e2 env env.minimizedRect

/-- The style write of `animateDocking_` (lines 2247-2285): the corner
translate (undefined when the minimize position is still INLINE, matching
the fall-through `default:` of the source switch) composed with the
scroll-bound scale, applied with `transformOrigin`/anchoring styles. -/
def animateDockingStyled (e : VideoEntry) (env : Env) : VideoEntry :=
  let ir := e.initialRect.getD ⟨0, 0, 0, 0⟩
  let offsetXLeft := calcDockOffsetXLeft e.visibleHeight ir
  let offsetXRight := calcDockOffsetXRight e.visibleHeight ir env
  let offsetYTop := calcDockOffsetYTop e.visibleHeight ir env
  let offsetYBottom := calcDockOffsetYBottom e.visibleHeight ir env
  let translateOpt : Option (ℚ × ℚ) :=
    match e.minimizePosition with
    | MinimizePosition.TOP_LEFT => some (offsetXLeft, offsetYTop)
    | MinimizePosition.TOP_RIGHT => some (offsetXRight, offsetYTop)
    | MinimizePosition.BOTTOM_LEFT => some (offsetXLeft, offsetYBottom)
    | MinimizePosition.BOTTOM_RIGHT => some (offsetXRight, offsetYBottom)
    | MinimizePosition.INLINE => none
  let scaleVal := dockTransformScale e.visibleHeight ir.height
  let transform :=
    (match translateOpt with
     | some p => stTranslate (stPx p.1) (stPx p.2)
     | none => "undefined") ++ " " ++ stScale scaleVal
  let newStyle := setStyles e.internalStyle
    [("transform", transform),
     ("transformOrigin", "top left"),
     ("bottom", "auto"),
     ("top", "0px"),
     ("right", "auto"),
     ("left", "0px")]
  { e with internalStyle := newStyle }

/-- `VideoEntry.animateDocking_` (lines 2247-2296): write the scroll-bound
transform, and either complete the docking (`DOCKED`, install the drag
controller and run the first `drag_` tick) or stay/return to `DOCKING`
(removing the dragging mask, `finishDragging_`). -/
def animateDocking (m : VideoManager) (i : Nat) (env : Env) : VideoManager :=
  match entryAt m i with
  | none => m
  | some e =>
    let es := animateDockingStyled e env
    let ir := e.initialRect.getD ⟨0, 0, 0, 0⟩
    let scaleVal := dockTransformScale e.visibleHeight ir.height
    if scaleVal = DOCK_SCALE then
      let e2 := { es with dockingState := DockingState.DOCKED }
      dragStep (initializeDragging (setEntry m i e2) i env) i env
    else
      let e2 := { es with draggingMask := false, dockingState := DockingState.DOCKING }
      setEntry m i e2

/-- `VideoEntry.updateDockableVideoPosition_` (lines 2143-2223): record the
last position (the source stores the very object it then patches with a
synthesized rectangle, so the patched value is recorded), synthesize a
rectangle just above/below the viewport when the element is off screen,
compute the visible height, latch `hasBeenInViewBefore`, and update
`minimizePosition_` unless the video could never be hidden by scrolling. -/
def updateDockableVideoPosition (e : VideoEntry) (newPos : PosEntry)
    (env : Env) : VideoEntry :=
  let ir := e.initialRect.getD ⟨0, 0, 0, 0⟩
  let isLtr := e.pageDirLtr
  let isBottom := newPos.relativePos = RelativePos.BOTTOM
  let isTop := newPos.relativePos = RelativePos.TOP
  let isInside := newPos.relativePos = RelativePos.INSIDE
  let pr : Rect :=
    match newPos.positionRect with
    | some r => r
    | none =>
      if isBottom then ⟨ir.left, env.viewportHeight, ir.width, ir.height⟩
      else ⟨ir.left, -ir.height, ir.width, ir.height⟩
  let lastPos := some { newPos with positionRect := some pr }
  let docViewTop := newPos.viewportRect.top
  let docViewBottom := newPos.viewportRect.bottom
  let elemTop := pr.top
  let elemBottom := pr.bottom
  let vh :=
    if elemTop ≤ docViewTop then elemBottom - docViewTop
    else if elemBottom ≥ docViewBottom then docViewBottom - elemTop
    else elemBottom - elemTop
  let inView := e.hasBeenInViewBefore || decide (vh = ir.height)
  let spaceOnTop := env.offsetTop
  let spaceOnBottom := env.scrollHeight - spaceOnTop - env.offsetHeight
  let minPos :=
    if (isBottom ∧ spaceOnTop < env.viewportHeight)
        ∨ (isTop ∧ spaceOnBottom < env.viewportHeight)
        ∨ env.offsetHeight > env.viewportHeight then
      MinimizePosition.INLINE
    else if e.minimizePosition = MinimizePosition.INLINE ∧ ¬isInside then
      if isTop then
        if isLtr then MinimizePosition.TOP_RIGHT else MinimizePosition.TOP_LEFT
      else if isBottom then
        if isLtr then MinimizePosition.BOTTOM_RIGHT else MinimizePosition.BOTTOM_LEFT
      else e.minimizePosition
    else if isInside then MinimizePosition.INLINE
    else e.minimizePosition
  { e with lastPosition := lastPos, visibleHeight := vh,
           hasBeenInViewBefore := inView, minimizePosition := minPos }

/-- `VideoEntry.onDockableVideoPositionChanged` (lines 2090-2134). -/
def onDockablePositionChanged (m : VideoManager) (i : Nat)
    (newPos : PosEntry) (env : Env) : VideoManager :=
  match entryAt m i with
  | none => m
  | some e0 =>
    let e := updateDockableVideoPosition e0 newPos env
    let m1 := setEntry m i e
    if e.loaded = false ∨ e.initialRect = none
        ∨ e.hasInternalElement = false
        ∨ (e.getPlayingState ≠ PlayingState.PLAYING_MANUAL
            ∧ e.internalHasDockClass = false) then
      m1
    else
      let outOfView := e.minimizePosition ≠ MinimizePosition.INLINE
        ∧ e.hasBeenInViewBefore = true
      let manPlaying := e.getPlayingState = PlayingState.PLAYING_MANUAL
      let paused := e.getPlayingState = PlayingState.PAUSED
      let dockedCls := e.internalHasDockClass = true
      if outOfView ∧ (manPlaying ∨ (paused ∧ dockedCls)) then
        let m2 :=
          if e.dockingState = DockingState.INLINE ∧ canDock m1 i then
            initializeDocking m1 i
          else m1
        match entryAt m2 i with
        | none => m2
        | some e1 =>
          if e1.dockingState ≠ DockingState.INLINE then
            animateDocking m2 i env
          else m2
      else if e.internalHasDockClass = true then finishDocking m1 i
      else m1

/-- `VideoEntry.mouse_` (lines 2490-2506): JavaScript `if (e.x)` is a
truthiness test, so a plain mouse event whose `x` is exactly 0 updates
nothing (touch events carry `touches` and always update).  When
`updateDisplacement` is set, the displacement becomes the per-axis absolute
offset between the element's position and the (just-updated) pointer
position. -/
def mouseUpdate (e : VideoEntry) (isTouch : Bool) (p : Vec2)
    (updateDisplacement : Bool) : VideoEntry :=
  let mouse := if isTouch = true ∨ p.x ≠ 0 then p else e.drag.mouse
  let disp : Vec2 :=
    if updateDisplacement = true then
      ⟨|e.drag.position.x - mouse.x|, |e.drag.position.y - mouse.y|⟩
    else e.drag.displacement
  { e with drag := { e.drag with mouse := mouse, displacement := disp } }

/-- The `mousedown`/`touchstart` listener on the dragging mask
(lines 2329-2334, 2347-2352): only reachable while the mask exists. -/
def pointerDown (m : VideoManager) (i : Nat) (isTouch : Bool) (p : Vec2) :
    VideoManager :=
  updateEntry m i fun e =>
    if e.listenersAttached = true ∧ e.draggingMask = true then
      mouseUpdate { e with isTouched := true, isDragging := false }
        isTouch p true
    else e

/-- The document-level `mousemove`/`touchmove` listener
(lines 2339-2345, 2357-2363): attached once and never removed. -/
def pointerMove (m : VideoManager) (i : Nat) (isTouch : Bool) (p : Vec2) :
    VideoManager :=
  updateEntry m i fun e =>
    if e.listenersAttached = true then
      mouseUpdate { e with isDragging := e.isTouched } isTouch p false
    else e

/-- The document-level `mouseup`/`touchend` listener
(lines 2335-2338, 2353-2356). -/
def pointerUp (m : VideoManager) (i : Nat) : VideoManager :=
  updateEntry m i fun e =>
    if e.listenersAttached = true then
      { e with isTouched := false, isDragging := false }
    else e

/-- Completion of an `animateSnap_` animation (lines 2634-2639): write the
target coordinates and clear the snapping flag. -/
def snapComplete (m : VideoManager) (i : Nat) : VideoManager :=
  updateEntry m i fun e =>
    match e.pendingSnap with
    | none => e
    | some p =>
      let dc := { e.drag with position := p }
      { e with drag := dc, isSnapping := false, pendingSnap := none }

/-- The resize listener installed by `dockableVideoBuilt_`
(lines 1941-1953): re-measure `initialRect_`, reset the docking state to
`INLINE`, and replay the last known position. -/
def resizeHandler (m : VideoManager) (i : Nat) (newRect : Rect) (env : Env) :
    VideoManager :=
  match entryAt m i with
  | none => m
  | some e =>
    let e := { e with initialRect := some newRect, dockingState := DockingState.INLINE }
    let m1 := setEntry m i e
    match e.lastPosition with
    | none => m1
    | some lp => onDockablePositionChanged m1 i lp env

/-- `VideoManager.registerCommonActions_` (lines 1524-1534): the four
action bindings with their trust level, in registration order. -/
def registerCommonActions : List (String × String) :=
  [("play", "MEDIUM"), ("pause", "MEDIUM"),
   ("mute", "MEDIUM"), ("unmute", "MEDIUM")]

/-- `VideoManager.register` (lines 1500-1514): the common actions are wired
first; if `supportsPlatform()` fails the method returns with the manager
unchanged (in particular `entries_` stays `null` if it was); otherwise the
entry list is initialized on demand and the new entry appended.  Returns
the new manager state together with the list of actions registered on the
video element during the call. -/
def register (m : VideoManager) (spec : VideoSpec) (initRect : Rect)
    (visFrac : Option ℚ) (ltr : Bool) :
    VideoManager × List (String × String) :=
  let actions := registerCommonActions
  if spec.supportsPlatform = false then
    (m, actions)
  else
    let l := m.entries.getD []
    let entry := mkEntry spec initRect visFrac ltr
    ({ m with entries := some (l ++ [entry]) }, actions)

/-- The fatal failure modes of `getEntryForVideo_` (lines 1613-1621): the
`dev().assert(false, 'video is not registered to this video manager')`
developer assertion when the lookup loop finds no entry, and the JavaScript
`TypeError` raised by reading `length` of `this.entries_` while it is still
`null` (no video was ever successfully registered). -/
inductive LookupFailure where
  | devAssert (msg : String)
  | nullTypeError
  deriving Repr, DecidableEq

/-- `VideoManager.getEntryForVideo_` (lines 1613-1621). -/
def getEntryForVideo (m : VideoManager) (videoId : Nat) :
    Except LookupFailure VideoEntry :=
  match m.entries with
  | none => Except.error LookupFailure.nullTypeError
  | some l =>
    match l.find? (fun e => e.videoId == videoId) with
    | some e => Except.ok e
    | none => Except.error
        (LookupFailure.devAssert "video is not registered to this video manager")

/-- `VideoManager.getPlayingState` (lines 1630-1632). -/
def getPlayingStateOf (m : VideoManager) (videoId : Nat) :
    Except LookupFailure PlayingState :=
  (getEntryForVideo m videoId).map VideoEntry.getPlayingState

/-- `VideoManager.userInteractedWithAutoPlay` (lines 1640-1642). -/
def userInteractedWithAutoPlayOf (m : VideoManager) (videoId : Nat) :
    Except LookupFailure Bool :=
  (getEntryForVideo m videoId).map VideoEntry.userInteractedWithAutoPlay

/-- Whether a video id is registered with the manager. -/
def isRegistered (m : VideoManager) (videoId : Nat) : Bool :=
  match m.entries with
  | none => false
  | some l => l.any (fun e => e.videoId == videoId)

/-- The events driving the manager: registration, the video lifecycle
events the constructor subscribes to, position-observer callbacks, viewport
resizes, drag-loop ticks, pointer events and snap-animation completions.
Geometry read from the DOM during a handler is carried by the event. -/
inductive VMEvent where
  | register (spec : VideoSpec) (initRect : Rect) (visFrac : Option ℚ)
      (ltr : Bool)
  | videoLoaded (i : Nat) (hasInternal : Bool) (visFrac : Option ℚ)
  | videoPlayed (i : Nat)
  | videoPaused (i : Nat)
  | positionChange (i : Nat) (newPos : PosEntry) (env : Env)
  | resize (i : Nat) (newRect : Rect) (env : Env)
  | dragTick (i : Nat) (env : Env)
  | pointerDown (i : Nat) (isTouch : Bool) (p : Vec2)
  | pointerMove (i : Nat) (isTouch : Bool) (p : Vec2)
  | pointerUp (i : Nat)
  | snapComplete (i : Nat)
  deriving Repr

/-- One event step of the manager.  Position-change and resize callbacks
are only subscribed for dockable videos (`maybeInstallPositionObserver_`,
`dockableVideoBuilt_`); a drag tick only runs when the loop re-enqueued
itself. -/
def step (m : VideoManager) (ev : VMEvent) : VideoManager :=
  match ev with
  | VMEvent.register spec r visFrac ltr => (register m spec r visFrac ltr).1
  | VMEvent.videoLoaded i hasInternal visFrac =>
    updateEntry m i fun e =>
      { e with loaded := true, hasInternalElement := hasInternal, isVisible := computeVisible visFrac }
  | VMEvent.videoPlayed i =>
    updateEntry m i fun e => { e with isPlaying := true }
  | VMEvent.videoPaused i =>
    updateEntry m i fun e => { e with isPlaying := false }
  | VMEvent.positionChange i newPos env =>
    match entryAt m i with
    | some e =>
      if e.hasDocking = true then onDockablePositionChanged m i newPos env
      else m
    | none => m
  | VMEvent.resize i newRect env =>
    match entryAt m i with
    | some e => if e.hasDocking = true then resizeHandler m i newRect env else m
    | none => m
  | VMEvent.dragTick i env =>
    match entryAt m i with
    | some e => if e.dragLoopScheduled = true then dragStep m i env else m
    | none => m
  | VMEvent.pointerDown i isTouch p => pointerDown m i isTouch p
  | VMEvent.pointerMove i isTouch p => pointerMove m i isTouch p
  | VMEvent.pointerUp i => pointerUp m i
  | VMEvent.snapComplete i => snapComplete m i

/-- Run a sequence of events from the freshly constructed manager. -/
def runEvents (evs : List VMEvent) : VideoManager :=
  evs.foldl step initManager

/-- Projection: docking state of the entry at index `i`. -/
def dockingStateAt (m : VideoManager) (i : Nat) : Option DockingState :=
  Option.map VideoEntry.dockingState (entryAt m i)

/-- Projection: minimize position of the entry at index `i`. -/
def minimizePositionAt (m : VideoManager) (i : Nat) : Option MinimizePosition :=
  Option.map VideoEntry.minimizePosition (entryAt m i)

/-- Projection: whether `DOCK_CLASS` is on the internal element of entry `i`. -/
def dockClassAt (m : VideoManager) (i : Nat) : Option Bool :=
  Option.map VideoEntry.internalHasDockClass (entryAt m i)

/-- Projection: whether the controls of entry `i` are shown. -/
def controlsShownAt (m : VideoManager) (i : Nat) : Option Bool :=
  Option.map VideoEntry.controlsShown (entryAt m i)

/-- Projection: the inline style attribute of entry `i`'s internal element. -/
def styleAt (m : VideoManager) (i : Nat) : Option StyleAttr :=
  Option.map VideoEntry.internalStyle (entryAt m i)

/-- Projection: whether the drag listeners of entry `i` are installed. -/
def dragListenerInstalledAt (m : VideoManager) (i : Nat) : Option Bool :=
  Option.map VideoEntry.dragListenerInstalled (entryAt m i)

/-- Projection: whether the drag loop of entry `i` is enqueued. -/
def dragLoopScheduledAt (m : VideoManager) (i : Nat) : Option Bool :=
  Option.map VideoEntry.dragLoopScheduled (entryAt m i)

/-- Projection: the drag coordinates of entry `i`. -/
def dragAt (m : VideoManager) (i : Nat) : Option DragCoordinates :=
  Option.map VideoEntry.drag (entryAt m i)

/-- Whether entry `i` exists and is not in the `INLINE` docking state. -/
def entryNonInline (m : VideoManager) (i : Nat) : Bool :=
  match entryAt m i with
  | some e => decide (e.dockingState ≠ DockingState.INLINE)
  | none => false

/-- An entry holds the dock in some form: it is either past `INLINE` in the
docking state machine or still carries `DOCK_CLASS` (the class survives a
resize-triggered state reset, see `resizeHandler`). -/
def markedEntry (e : VideoEntry) : Prop :=
  e.dockingState ≠ DockingState.INLINE ∨ e.internalHasDockClass = true

instance (e : VideoEntry) : Decidable (markedEntry e) := by
  unfold markedEntry
  infer_instance

/-- The single-docked-video invariant: every entry that holds the dock in
some form is the one referenced by the manager's docked slot.  Since the
slot holds at most one index, at most one entry can be marked, and in
particular at most one entry can have `dockingState ≠ INLINE`. -/
def DockInvariant (m : VideoManager) : Prop :=
  ∀ i e, entryAt m i = some e → markedEntry e → m.dockedVideo = some i

/-- Whether a lookup failure is the `dev().assert` developer assertion. -/
def isDevAssertFailure : LookupFailure → Bool
  | LookupFailure.devAssert _ => true
  | LookupFailure.nullTypeError => false

/-- Whether an entry-lookup result failed with the developer assertion. -/
def failsWithDevAssert {α : Type} : Except LookupFailure α → Bool
  | Except.error f => isDevAssertFailure f
  | Except.ok _ => false

/-- A manager holding only one video whose registration was skipped because
`supportsPlatform()` returned false: the entry list is still `null`. -/
def skippedOnlyManager : VideoManager :=
  (register initManager ⟨0, false, false, false⟩ ⟨0, 0, 0, 0⟩ none true).1

/-- Concrete docking scenario: a 100x200 video at (10, 100) in an 800x600
viewport, registered, loaded, manually playing, seen fully in view once,
then scrolled off the top edge. -/
def scenarioRect : Rect := ⟨10, 100, 100, 200⟩

/-- Viewport rectangle of the concrete docking scenario. -/
def scenarioViewport : Rect := ⟨0, 0, 800, 600⟩

/-- Ambient geometry of the concrete docking scenario. -/
def scenarioEnv : Env :=
  ⟨800, 600, 2000, 700, 200, ⟨0, 0, 60, 120⟩, ⟨10, 100, 100, 200⟩⟩

/-- The dockable, platform-supported video of the concrete scenario. -/
def scenarioSpec : VideoSpec := ⟨0, true, true, false⟩

/-- Position report while the scenario video is fully inside the viewport. -/
def scenarioPosInside : PosEntry :=
  ⟨RelativePos.INSIDE, some scenarioRect, scenarioViewport⟩

/-- Position report after the scenario video scrolled off the top edge. -/
def scenarioPosTop : PosEntry := ⟨RelativePos.TOP, none, scenarioViewport⟩

/-- Scenario prefix: register, load, play manually, observe fully in view. -/
def scenarioPrefix : List VMEvent :=
  [VMEvent.register scenarioSpec scenarioRect none true,
   VMEvent.videoLoaded 0 true none,
   VMEvent.videoPlayed 0,
   VMEvent.positionChange 0 scenarioPosInside scenarioEnv]

/-- Scenario docking event: the position change reporting the video fully
above the viewport, which initializes and completes the docking. -/
def scenarioDockEvent : VMEvent :=
  VMEvent.positionChange 0 scenarioPosTop scenarioEnv

/-- A docked, loaded, free-moving entry used to witness the drag-loop
claims: velocity (4, 6) px/frame, position (30, 40). -/
def freeTickEntry : VideoEntry :=
  { mkEntry ⟨0, true, true, false⟩ ⟨10, 100, 100, 200⟩ none true with
    loaded := true
    isPlaying := true
    hasInternalElement := true
    internalHasDockClass := true
    dockingState := DockingState.DOCKED
    visibleHeight := 0
    dragListenerInstalled := true
    listenersAttached := true
    draggingMask := true
    dragLoopScheduled := true
    drag := { DragCoordinates.zero with
      position := ⟨30, 40⟩, velocity := ⟨4, 6⟩ } }

/-- A manager holding `freeTickEntry` as its docked video. -/
def freeTickManager : VideoManager := ⟨some [freeTickEntry], some 0⟩

/-- A docked entry being actively dragged, pointer at (500, 400) with
displacement (20, 10), used to witness the dragging-tick claim. -/
def draggingEntry : VideoEntry :=
  { freeTickEntry with
    isTouched := true
    isDragging := true
    drag := { DragCoordinates.zero with
      mouse := ⟨500, 400⟩, displacement := ⟨20, 10⟩,
      position := ⟨30, 40⟩, previous := ⟨30, 40⟩ } }

/-- A manager holding `draggingEntry` as its docked video. -/
def draggingManager : VideoManager := ⟨some [draggingEntry], some 0⟩

/-- A mid-docking entry (controls already hidden by `initializeDocking_`)
used to witness the docking-completion claim. -/
def dockingAnimEntry : VideoEntry :=
  { freeTickEntry with
    controlsShown := false
    dockingState := DockingState.DOCKING }

/-- A manager holding `dockingAnimEntry` as its docked video. -/
def dockingAnimManager : VideoManager := ⟨some [dockingAnimEntry], some 0⟩

/-- A loaded, playing, inline entry with an empty style baseline, used to
witness the round-trip claim. -/
def roundTripEntry : VideoEntry :=
  { freeTickEntry with
    internalHasDockClass := false
    dockingState := DockingState.INLINE
    dragListenerInstalled := false
    listenersAttached := false
    draggingMask := false
    dragLoopScheduled := false }

/-- A manager holding `roundTripEntry`, with no docked video yet. -/
def roundTripManager : VideoManager := ⟨some [roundTripEntry], none⟩

/-! ## Infrastructure lemmas -/

theorem entryAt_setEntry (m : VideoManager) (i j : Nat) (e' : VideoEntry) :
    entryAt (setEntry m i e') j =
      if i = j ∧ (entryAt m i).isSome = true then some e' else entryAt m j := by
  cases hm : m.entries with
  | none => simp [entryAt, setEntry, hm]
  | some l =>
    simp only [entryAt, setEntry, hm, Option.map_some']
    rw [List.getElem?_set]
    by_cases hij : i = j
    · subst hij
      by_cases hlen : i < l.length
      · simp [hlen, List.getElem?_eq_getElem hlen]
      · simp [hlen, List.getElem?_eq_none (Nat.le_of_not_lt hlen)]
    · simp [hij]

theorem entryAt_setEntry_self {m : VideoManager} {i : Nat} {e : VideoEntry}
    (h : entryAt m i = some e) (e' : VideoEntry) :
    entryAt (setEntry m i e') i = some e' := by
  rw [entryAt_setEntry]
  simp [h]

theorem entryAt_setEntry_of_ne {m : VideoManager} {i j : Nat}
    (h : ¬ i = j) (e' : VideoEntry) :
    entryAt (setEntry m i e') j = entryAt m j := by
  rw [entryAt_setEntry]
  simp [h]

theorem dockedVideo_setEntry (m : VideoManager) (i : Nat) (e' : VideoEntry) :
    (setEntry m i e').dockedVideo = m.dockedVideo := rfl

theorem entryAt_updateEntry_self {m : VideoManager} {i : Nat} {e : VideoEntry}
    (h : entryAt m i = some e) (f : VideoEntry → VideoEntry) :
    entryAt (updateEntry m i f) i = some (f e) := by
  unfold updateEntry
  rw [h]
  exact entryAt_setEntry_self h (f e)

theorem entryAt_updateEntry_of_ne {m : VideoManager} {i j : Nat}
    (h : ¬ i = j) (f : VideoEntry → VideoEntry) :
    entryAt (updateEntry m i f) j = entryAt m j := by
  unfold updateEntry
  cases hE : entryAt m i with
  | none => rfl
  | some e => exact entryAt_setEntry_of_ne h (f e)

theorem updateEntry_of_none {m : VideoManager} {i : Nat}
    (h : entryAt m i = none) (f : VideoEntry → VideoEntry) :
    updateEntry m i f = m := by
  unfold updateEntry
  rw [h]

theorem dockedVideo_updateEntry (m : VideoManager) (i : Nat)
    (f : VideoEntry → VideoEntry) :
    (updateEntry m i f).dockedVideo = m.dockedVideo := by
  unfold updateEntry
  cases entryAt m i with
  | none => rfl
  | some e => rfl

theorem entryAt_unregisterDocked (m : VideoManager) (j : Nat) :
    entryAt (unregisterDocked m) j =
      Option.map (fun e => { e with hasBeenInViewBefore := false })
        (entryAt m j) := by
  cases hm : m.entries with
  | none => simp [entryAt, unregisterDocked, hm]
  | some l => simp [entryAt, unregisterDocked, hm, List.getElem?_map]

theorem dockedVideo_unregisterDocked (m : VideoManager) :
    (unregisterDocked m).dockedVideo = none := rfl

theorem entryAt_registerDocked (m : VideoManager) (i j : Nat) :
    entryAt (registerDocked m i) j = entryAt m j := rfl

theorem dockedVideo_registerDocked (m : VideoManager) (i : Nat) :
    (registerDocked m i).dockedVideo = some i := rfl

/-! ### Projection lemmas for the drag-loop entry transformers -/

theorem snapAndMoveEntry_dockingState (e : VideoEntry) (env : Env)
    (rect : Rect) : (snapAndMoveEntry e env rect).dockingState = e.dockingState := by
  unfold snapAndMoveEntry
  dsimp only
  split_ifs <;> rfl

theorem snapAndMoveEntry_internalHasDockClass (e : VideoEntry) (env : Env)
    (rect : Rect) :
    (snapAndMoveEntry e env rect).internalHasDockClass =
      e.internalHasDockClass := by
  unfold snapAndMoveEntry
  dsimp only
  split_ifs <;> rfl

theorem snapAndMoveEntry_controlsShown (e : VideoEntry) (env : Env)
    (rect : Rect) :
    (snapAndMoveEntry e env rect).controlsShown = e.controlsShown := by
  unfold snapAndMoveEntry
  dsimp only
  split_ifs <;> rfl

theorem snapAndMoveEntry_dragListenerInstalled (e : VideoEntry) (env : Env)
    (rect : Rect) :
    (snapAndMoveEntry e env rect).dragListenerInstalled =
      e.dragListenerInstalled := by
  unfold snapAndMoveEntry
  dsimp only
  split_ifs <;> rfl

theorem snapAndMoveEntry_dragLoopScheduled (e : VideoEntry) (env : Env)
    (rect : Rect) :
    (snapAndMoveEntry e env rect).dragLoopScheduled = true := by
  unfold snapAndMoveEntry
  dsimp only

theorem snapAndMoveEntry_drag (e : VideoEntry) (env : Env) (rect : Rect) :
    (snapAndMoveEntry e env rect).drag = e.drag := by
  unfold snapAndMoveEntry
  dsimp only
  split_ifs <;> rfl

theorem snapAndMoveEntry_minimizePosition_of (e : VideoEntry) (env : Env)
    (rect : Rect) (hdrag : e.isDragging = false) (hsnap : e.isSnapping = false)
    (hvx : |e.drag.velocity.x| ≤ STOP_THRESHOLD)
    (hvy : |e.drag.velocity.y| ≤ STOP_THRESHOLD) :
    (snapAndMoveEntry e env rect).minimizePosition =
      calcSnapCorner e.drag.position.x e.drag.position.y
        rect.width rect.height env.viewportWidth env.viewportHeight := by
  unfold snapAndMoveEntry
  dsimp only
  split_ifs with h1 h2 h3 <;>
    first
      | rfl
      | exact absurd ⟨hdrag, hsnap, hvx, hvy⟩ h1

theorem installDrag_dockingState (e : VideoEntry) (env : Env) :
    (installDrag e env).dockingState = e.dockingState := by
  unfold installDrag
  split_ifs <;> rfl

theorem installDrag_internalHasDockClass (e : VideoEntry) (env : Env) :
    (installDrag e env).internalHasDockClass = e.internalHasDockClass := by
  unfold installDrag
  split_ifs <;> rfl

theorem installDrag_controlsShown (e : VideoEntry) (env : Env) :
    (installDrag e env).controlsShown = e.controlsShown := by
  unfold installDrag
  split_ifs <;> rfl

theorem installDrag_loaded (e : VideoEntry) (env : Env) :
    (installDrag e env).loaded = e.loaded := by
  unfold installDrag
  split_ifs <;> rfl

theorem installDrag_hasInternalElement (e : VideoEntry) (env : Env) :
    (installDrag e env).hasInternalElement = e.hasInternalElement := by
  unfold installDrag
  split_ifs <;> rfl

theorem installDrag_visibleHeight (e : VideoEntry) (env : Env) :
    (installDrag e env).visibleHeight = e.visibleHeight := by
  unfold installDrag
  split_ifs <;> rfl

theorem installDrag_isDismissed (e : VideoEntry) (env : Env) :
    (installDrag e env).isDismissed = e.isDismissed := by
  unfold installDrag
  split_ifs <;> rfl

theorem installDrag_dragListenerInstalled (e : VideoEntry) (env : Env) :
    (installDrag e env).dragListenerInstalled = true := by
  unfold installDrag
  split_ifs with h
  · exact h
  · rfl

theorem dragPointerEntry_dockingState (e : VideoEntry) (env : Env)
    (rect : Rect) : (dragPointerEntry e env rect).dockingState = e.dockingState := rfl

theorem dragPointerEntry_internalHasDockClass (e : VideoEntry) (env : Env)
    (rect : Rect) :
    (dragPointerEntry e env rect).internalHasDockClass =
      e.internalHasDockClass := rfl

theorem dragFreeEntry_isDismissed (e : VideoEntry) :
    (dragFreeEntry e).isDismissed = e.isDismissed := rfl

theorem dragPointerEntry_controlsShown (e : VideoEntry) (env : Env)
    (rect : Rect) :
    (dragPointerEntry e env rect).controlsShown = e.controlsShown := rfl

theorem dragPointerEntry_dragListenerInstalled (e : VideoEntry) (env : Env)
    (rect : Rect) :
    (dragPointerEntry e env rect).dragListenerInstalled =
      e.dragListenerInstalled := rfl

theorem dragFreeEntry_dockingState (e : VideoEntry) :
    (dragFreeEntry e).dockingState = e.dockingState := rfl

theorem dragFreeEntry_internalHasDockClass (e : VideoEntry) :
    (dragFreeEntry e).internalHasDockClass = e.internalHasDockClass := rfl

theorem dragFreeEntry_controlsShown (e : VideoEntry) :
    (dragFreeEntry e).controlsShown = e.controlsShown := rfl

theorem dragFreeEntry_dragListenerInstalled (e : VideoEntry) :
    (dragFreeEntry e).dragListenerInstalled = e.dragListenerInstalled := rfl

/-- Running one `drag_` tick right after `initializeDragging_` on a docked,
loaded, fully-minimized entry keeps it docked with the marker class, keeps
the controls hidden, leaves the drag listeners installed, and re-enqueues
the loop. -/
theorem dragStep_after_install (m : VideoManager) (i : Nat) (env : Env)
    (e1 : VideoEntry) (he1 : entryAt m i = some e1)
    (hl : e1.loaded = true) (hint : e1.hasInternalElement = true)
    (hvh : e1.visibleHeight = 0) (hcls : e1.internalHasDockClass = true)
    (hst : e1.dockingState = DockingState.DOCKED)
    (hctrl : e1.controlsShown = false) (hdism : e1.isDismissed = false) :
    dockingStateAt (dragStep (initializeDragging m i env) i env) i =
      some DockingState.DOCKED
    ∧ dockClassAt (dragStep (initializeDragging m i env) i env) i = some true
    ∧ controlsShownAt (dragStep (initializeDragging m i env) i env) i =
      some false
    ∧ dragListenerInstalledAt (dragStep (initializeDragging m i env) i env) i =
      some true
    ∧ dragLoopScheduledAt (dragStep (initializeDragging m i env) i env) i =
      some true := by
  have he2 : entryAt (initializeDragging m i env) i =
      some (installDrag e1 env) :=
    entryAt_updateEntry_self he1 _
  rw [dragStep, he2]
  try dsimp only
  rw [if_neg (by
    simp [installDrag_loaded, installDrag_hasInternalElement,
      installDrag_visibleHeight, installDrag_internalHasDockClass,
      installDrag_dockingState, hl, hint, hvh, hcls, hst])]
  by_cases hd : (installDrag e1 env).isDragging = true
  · rw [if_pos hd]
    rw [dragSnapAndMove]
    refine ⟨?_, ?_, ?_, ?_, ?_⟩ <;>
      simp [dockingStateAt, dockClassAt, controlsShownAt,
        dragListenerInstalledAt, dragLoopScheduledAt,
        entryAt_setEntry, he2,
        snapAndMoveEntry_dockingState, snapAndMoveEntry_internalHasDockClass,
        snapAndMoveEntry_controlsShown, snapAndMoveEntry_dragListenerInstalled,
        snapAndMoveEntry_dragLoopScheduled,
        dragPointerEntry_dockingState, dragPointerEntry_internalHasDockClass,
        dragPointerEntry_controlsShown, dragPointerEntry_dragListenerInstalled,
        installDrag_dockingState, installDrag_internalHasDockClass,
        installDrag_controlsShown, installDrag_dragListenerInstalled,
        hst, hcls, hctrl]
  · rw [if_neg hd]
    try dsimp only
    rw [if_neg (by
      simp [dragFreeEntry_isDismissed, installDrag_isDismissed, hdism])]
    rw [dragSnapAndMove]
    refine ⟨?_, ?_, ?_, ?_, ?_⟩ <;>
      simp [dockingStateAt, dockClassAt, controlsShownAt,
        dragListenerInstalledAt, dragLoopScheduledAt,
        entryAt_setEntry, he2,
        snapAndMoveEntry_dockingState, snapAndMoveEntry_internalHasDockClass,
        snapAndMoveEntry_controlsShown, snapAndMoveEntry_dragListenerInstalled,
        snapAndMoveEntry_dragLoopScheduled,
        dragFreeEntry_dockingState, dragFreeEntry_internalHasDockClass,
        dragFreeEntry_controlsShown, dragFreeEntry_dragListenerInstalled,
        installDrag_dockingState, installDrag_internalHasDockClass,
        installDrag_controlsShown, installDrag_dragListenerInstalled,
        hst, hcls, hctrl]

/-! ### Single-docked-video invariant machinery (claim C1) -/

theorem markedEntry_snapAndMoveEntry (e : VideoEntry) (env : Env) (rect : Rect) :
    markedEntry (snapAndMoveEntry e env rect) ↔ markedEntry e := by
  unfold markedEntry
  rw [snapAndMoveEntry_dockingState, snapAndMoveEntry_internalHasDockClass]

theorem markedEntry_dragPointerEntry (e : VideoEntry) (env : Env) (rect : Rect) :
    markedEntry (dragPointerEntry e env rect) ↔ markedEntry e := Iff.rfl

theorem markedEntry_dragFreeEntry (e : VideoEntry) :
    markedEntry (dragFreeEntry e) ↔ markedEntry e := Iff.rfl

theorem markedEntry_installDrag (e : VideoEntry) (env : Env) :
    markedEntry (installDrag e env) ↔ markedEntry e := by
  unfold markedEntry
  rw [installDrag_dockingState, installDrag_internalHasDockClass]

theorem markedEntry_mouseUpdate (e : VideoEntry) (t : Bool) (p : Vec2)
    (u : Bool) : markedEntry (mouseUpdate e t p u) ↔ markedEntry e := Iff.rfl

theorem markedEntry_updateDockableVideoPosition (e : VideoEntry)
    (p : PosEntry) (env : Env) :
    markedEntry (updateDockableVideoPosition e p env) ↔ markedEntry e := Iff.rfl

theorem not_markedEntry_finishDockingEntry (e : VideoEntry) :
    ¬ markedEntry (finishDockingEntry e) := by
  unfold markedEntry finishDockingEntry
  simp

theorem not_markedEntry_mkEntry (spec : VideoSpec) (r : Rect)
    (f : Option ℚ) (ltr : Bool) : ¬ markedEntry (mkEntry spec r f ltr) := by
  unfold markedEntry mkEntry
  simp

theorem dockInvariant_updateEntry {m : VideoManager} {i : Nat}
    {f : VideoEntry → VideoEntry}
    (hf : ∀ e, markedEntry (f e) → markedEntry e)
    (h : DockInvariant m) : DockInvariant (updateEntry m i f) := by
  intro j e' hj hm'
  rw [dockedVideo_updateEntry]
  by_cases hij : i = j
  · subst hij
    cases hE : entryAt m i with
    | none =>
      rw [updateEntry_of_none hE] at hj
      exact h _ _ hj hm'
    | some e0 =>
      rw [entryAt_updateEntry_self hE] at hj
      cases hj
      exact h _ _ hE (hf e0 hm')
  · rw [entryAt_updateEntry_of_ne hij] at hj
    exact h _ _ hj hm'

theorem dockInvariant_setEntry {m : VideoManager} {i : Nat} {e' : VideoEntry}
    (h : DockInvariant m)
    (hmark : markedEntry e' → m.dockedVideo = some i) :
    DockInvariant (setEntry m i e') := by
  intro j e2 hj hm2
  rw [dockedVideo_setEntry]
  rw [entryAt_setEntry] at hj
  split at hj
  · next hc =>
    cases hj
    rw [← hc.1]
    exact hmark hm2
  · exact h _ _ hj hm2

theorem dockInvariant_unregisterDocked {m : VideoManager}
    (hclean : ∀ j e, entryAt m j = some e → ¬ markedEntry e) :
    DockInvariant (unregisterDocked m) := by
  intro j e hj hm
  rw [entryAt_unregisterDocked] at hj
  obtain ⟨e0, he0, hmap⟩ := Option.map_eq_some'.mp hj
  subst hmap
  exact absurd hm (by
    have := hclean j e0 he0
    unfold markedEntry at this ⊢
    simpa using this)

theorem dockInvariant_finishDocking {m : VideoManager} {i : Nat}
    {e : VideoEntry} (h : DockInvariant m) (he : entryAt m i = some e)
    (hmark : markedEntry e) : DockInvariant (finishDocking m i) := by
  have hdk : m.dockedVideo = some i := h i e he hmark
  rw [finishDocking]
  refine dockInvariant_updateEntry (fun e' hm' => hm') ?_
  refine dockInvariant_unregisterDocked ?_
  intro j e' hj hm'
  by_cases hij : i = j
  · subst hij
    rw [entryAt_updateEntry_self he] at hj
    cases hj
    exact not_markedEntry_finishDockingEntry e hm'
  · rw [entryAt_updateEntry_of_ne hij] at hj
    have := h j e' hj hm'
    rw [hdk] at this
    exact hij (by injection this)

theorem dockInvariant_initializeDocking {m : VideoManager} {i : Nat}
    (h : DockInvariant m) (hcd : canDock m i) :
    DockInvariant (initializeDocking m i) := by
  rw [initializeDocking]
  intro j e hj hm
  rw [entryAt_registerDocked] at hj
  rw [dockedVideo_registerDocked]
  suffices hji : j = i by rw [hji]
  by_contra hne
  have hji' : ¬ i = j := fun hc => hne hc.symm
  rw [entryAt_updateEntry_of_ne hji'] at hj
  have hdv := h j e hj hm
  rcases hcd with hnone | hsome
  · rw [hnone] at hdv
    exact absurd hdv (by simp)
  · rw [hsome] at hdv
    have hij : i = j := by injection hdv
    exact hne hij.symm

theorem dockInvariant_dragStep {m : VideoManager} {i : Nat} {env : Env}
    (h : DockInvariant m) : DockInvariant (dragStep m i env) := by
  rw [dragStep]
  cases hE : entryAt m i with
  | none => exact h
  | some e =>
    dsimp only
    split_ifs with hg hd hdm
    · exact dockInvariant_setEntry h (fun hm => h i e hE hm)
    · rw [dragSnapAndMove]
      apply dockInvariant_setEntry h
      intro hm
      rw [markedEntry_snapAndMoveEntry, markedEntry_dragPointerEntry] at hm
      exact h i e hE hm
    · have hcls : e.internalHasDockClass = true := by
        by_contra hc
        exact hg (Or.inr (Or.inr (Or.inr (Or.inl (by simpa using hc)))))
      have h1 : DockInvariant (setEntry m i (dragFreeEntry e)) :=
        dockInvariant_setEntry h
          (fun hm => h i e hE ((markedEntry_dragFreeEntry e).mp hm))
      have he1 : entryAt (setEntry m i (dragFreeEntry e)) i =
          some (dragFreeEntry e) := entryAt_setEntry_self hE _
      have h2 : DockInvariant (finishDocking (setEntry m i (dragFreeEntry e)) i) :=
        dockInvariant_finishDocking h1 he1 (Or.inr hcls)
      exact dockInvariant_updateEntry (fun e' hm' => hm') h2
    · rw [dragSnapAndMove]
      apply dockInvariant_setEntry h
      intro hm
      rw [markedEntry_snapAndMoveEntry, markedEntry_dragFreeEntry] at hm
      exact h i e hE hm

theorem markedEntry_animateDockingStyled (e : VideoEntry) (env : Env) :
    markedEntry (animateDockingStyled e env) ↔ markedEntry e := Iff.rfl

theorem dockInvariant_animateDocking {m : VideoManager} {i : Nat} {env : Env}
    (h : DockInvariant m)
    (hmark : ∀ e, entryAt m i = some e → markedEntry e) :
    DockInvariant (animateDocking m i env) := by
  rw [animateDocking]
  cases hE : entryAt m i with
  | none => exact h
  | some e =>
    dsimp only
    have hdk : m.dockedVideo = some i := h i e hE (hmark e hE)
    split_ifs with hscale
    · apply dockInvariant_dragStep
      refine dockInvariant_updateEntry (fun e' hm' => ?_) ?_
      · rwa [markedEntry_installDrag] at hm'
      · exact dockInvariant_setEntry h (fun _ => hdk)
    · exact dockInvariant_setEntry h (fun _ => hdk)

theorem dockInvariant_onDockable {m : VideoManager} {i : Nat} {p : PosEntry}
    {env : Env} (h : DockInvariant m) :
    DockInvariant (onDockablePositionChanged m i p env) := by
  rw [onDockablePositionChanged]
  cases hE : entryAt m i with
  | none => exact h
  | some e0 =>
    dsimp only
    have h1 : DockInvariant (setEntry m i (updateDockableVideoPosition e0 p env)) := by
      refine dockInvariant_setEntry h (fun hm => ?_)
      rw [markedEntry_updateDockableVideoPosition] at hm
      exact h i e0 hE hm
    have he1 : entryAt (setEntry m i (updateDockableVideoPosition e0 p env)) i =
        some (updateDockableVideoPosition e0 p env) := entryAt_setEntry_self hE _
    split_ifs with hguard houter hinit
    · exact h1
    · have h2 : DockInvariant
          (initializeDocking (setEntry m i (updateDockableVideoPosition e0 p env)) i) :=
        dockInvariant_initializeDocking h1 hinit.2
      cases hE2 : entryAt
          (initializeDocking (setEntry m i (updateDockableVideoPosition e0 p env)) i) i with
      | none => exact h2
      | some e1 =>
        dsimp only
        split_ifs with hni
        · refine dockInvariant_animateDocking h2 (fun e' he' => ?_)
          rw [hE2] at he'
          cases he'
          exact Or.inl hni
        · exact h2
    · cases hE2 : entryAt (setEntry m i (updateDockableVideoPosition e0 p env)) i with
      | none => exact h1
      | some e1 =>
        dsimp only
        split_ifs with hni
        · refine dockInvariant_animateDocking h1 (fun e' he' => ?_)
          rw [hE2] at he'
          cases he'
          exact Or.inl hni
        · exact h1
    · refine dockInvariant_finishDocking h1 he1 (Or.inr ?_)
      next hclass => exact hclass
    · exact h1

theorem dockInvariant_resizeHandler {m : VideoManager} {i : Nat} {r : Rect}
    {env : Env} (h : DockInvariant m) :
    DockInvariant (resizeHandler m i r env) := by
  rw [resizeHandler]
  cases hE : entryAt m i with
  | none => exact h
  | some e =>
    dsimp only
    split
    · refine dockInvariant_setEntry h (fun hm => ?_)
      rcases hm with hs | hc
      · exact absurd rfl hs
      · exact h i e hE (Or.inr hc)
    · refine dockInvariant_onDockable (dockInvariant_setEntry h (fun hm => ?_))
      rcases hm with hs | hc
      · exact absurd rfl hs
      · exact h i e hE (Or.inr hc)

theorem dockInvariant_register {m : VideoManager} {spec : VideoSpec}
    {r : Rect} {f : Option ℚ} {ltr : Bool} (h : DockInvariant m) :
    DockInvariant ((register m spec r f ltr).1) := by
  rw [register]
  dsimp only
  split_ifs with hp
  · exact h
  · intro j e hj hm
    have hj' : (m.entries.getD [] ++ [mkEntry spec r f ltr])[j]? = some e := by
      simpa [entryAt] using hj
    rcases lt_or_ge j (m.entries.getD []).length with hlt | hge
    · have hentry : (m.entries.getD [])[j]? = some e := by
        rw [List.getElem?_append] at hj'
        rwa [if_pos hlt] at hj'
      have hent : entryAt m j = some e := by
        unfold entryAt
        cases hme : m.entries with
        | none =>
          exfalso
          rw [hme] at hlt
          simp at hlt
        | some l0 =>
          rw [hme] at hentry
          simpa using hentry
      exact h j e hent hm
    · rw [List.getElem?_append_right hge] at hj'
      cases hk : j - (m.entries.getD []).length with
      | zero =>
        rw [hk] at hj'
        simp at hj'
        rw [← hj'] at hm
        exact absurd hm (not_markedEntry_mkEntry spec r f ltr)
      | succ n =>
        rw [hk] at hj'
        simp at hj'

theorem dockInvariant_step {m : VideoManager} (ev : VMEvent)
    (h : DockInvariant m) : DockInvariant (step m ev) := by
  cases ev with
  | register spec r f ltr => exact dockInvariant_register h
  | videoLoaded i hint f =>
    exact dockInvariant_updateEntry (fun e' hm' => hm') h
  | videoPlayed i => exact dockInvariant_updateEntry (fun e' hm' => hm') h
  | videoPaused i => exact dockInvariant_updateEntry (fun e' hm' => hm') h
  | positionChange i p env =>
    rw [step]
    cases entryAt m i with
    | none => exact h
    | some e =>
      try dsimp only
      split_ifs
      · exact dockInvariant_onDockable h
      · exact h
  | resize i r env =>
    rw [step]
    cases entryAt m i with
    | none => exact h
    | some e =>
      try dsimp only
      split_ifs
      · exact dockInvariant_resizeHandler h
      · exact h
  | dragTick i env =>
    rw [step]
    cases entryAt m i with
    | none => exact h
    | some e =>
      try dsimp only
      split_ifs
      · exact dockInvariant_dragStep h
      · exact h
  | pointerDown i t p =>
    refine dockInvariant_updateEntry (fun e' hm' => ?_) h
    revert hm'
    try dsimp only
    split_ifs
    · rw [markedEntry_mouseUpdate]
      exact fun hm' => hm'
    · exact fun hm' => hm'
  | pointerMove i t p =>
    refine dockInvariant_updateEntry (fun e' hm' => ?_) h
    revert hm'
    try dsimp only
    split_ifs
    · rw [markedEntry_mouseUpdate]
      exact fun hm' => hm'
    · exact fun hm' => hm'
  | pointerUp i =>
    refine dockInvariant_updateEntry (fun e' hm' => ?_) h
    revert hm'
    try dsimp only
    split_ifs
    · exact fun hm' => hm'
    · exact fun hm' => hm'
  | snapComplete i =>
    refine dockInvariant_updateEntry (fun e' hm' => ?_) h
    revert hm'
    cases e'.pendingSnap <;> exact fun hm' => hm'

theorem dockInvariant_initManager : DockInvariant initManager := by
  intro i e hi hm
  simp [entryAt, initManager] at hi

theorem dockInvariant_foldl (evs : List VMEvent) :
    ∀ m : VideoManager, DockInvariant m →
      DockInvariant (evs.foldl step m) := by
  induction evs with
  | nil => exact fun m h => h
  | cons ev rest ih =>
    intro m h
    exact ih (step m ev) (dockInvariant_step ev h)

theorem dockInvariant_runEvents (evs : List VMEvent) :
    DockInvariant (runEvents evs) :=
  dockInvariant_foldl evs initManager dockInvariant_initManager

/-! ### Docking-state stability lemmas (claim C1, part 2) -/

theorem dockingStateAt_setEntry_of_ne {m : VideoManager} {i j : Nat}
    (h : ¬ i = j) (e' : VideoEntry) :
    dockingStateAt (setEntry m i e') j = dockingStateAt m j := by
  unfold dockingStateAt
  rw [entryAt_setEntry_of_ne h]

theorem dockingStateAt_updateEntry_of_ne {m : VideoManager} {i j : Nat}
    (h : ¬ i = j) (f : VideoEntry → VideoEntry) :
    dockingStateAt (updateEntry m i f) j = dockingStateAt m j := by
  unfold dockingStateAt
  rw [entryAt_updateEntry_of_ne h]

theorem dockingStateAt_unregisterDocked (m : VideoManager) (j : Nat) :
    dockingStateAt (unregisterDocked m) j = dockingStateAt m j := by
  unfold dockingStateAt
  rw [entryAt_unregisterDocked]
  cases entryAt m j <;> rfl

theorem dockingStateAt_finishDocking_of_ne {m : VideoManager} {i j : Nat}
    (h : ¬ i = j) : dockingStateAt (finishDocking m i) j = dockingStateAt m j := by
  rw [finishDocking]
  rw [dockingStateAt_updateEntry_of_ne h, dockingStateAt_unregisterDocked,
    dockingStateAt_updateEntry_of_ne h]

theorem dockingStateAt_dragSnapAndMove_of_ne {m : VideoManager} {i j : Nat}
    (h : ¬ i = j) (e : VideoEntry) (env : Env) (rect : Rect) :
    dockingStateAt (dragSnapAndMove m i e env rect) j = dockingStateAt m j := by
  rw [dragSnapAndMove, dockingStateAt_setEntry_of_ne h]

theorem dockingStateAt_dragStep_of_ne {m : VideoManager} {i j : Nat}
    (h : ¬ i = j) (env : Env) :
    dockingStateAt (dragStep m i env) j = dockingStateAt m j := by
  rw [dragStep]
  cases hE : entryAt m i with
  | none => rfl
  | some e =>
    dsimp only
    split_ifs with hg hd hdm
    · rw [dockingStateAt_setEntry_of_ne h]
    · rw [dockingStateAt_dragSnapAndMove_of_ne h]
    · rw [dockingStateAt_updateEntry_of_ne h,
        dockingStateAt_finishDocking_of_ne h, dockingStateAt_setEntry_of_ne h]
    · rw [dockingStateAt_dragSnapAndMove_of_ne h]

theorem dockingStateAt_initializeDocking_of_ne {m : VideoManager} {i j : Nat}
    (h : ¬ i = j) :
    dockingStateAt (initializeDocking m i) j = dockingStateAt m j := by
  rw [initializeDocking]
  unfold dockingStateAt
  rw [entryAt_registerDocked, entryAt_updateEntry_of_ne h]

theorem dockingStateAt_animateDocking_of_ne {m : VideoManager} {i j : Nat}
    (h : ¬ i = j) (env : Env) :
    dockingStateAt (animateDocking m i env) j = dockingStateAt m j := by
  rw [animateDocking]
  cases hE : entryAt m i with
  | none => rfl
  | some e =>
    dsimp only
    split_ifs with hscale
    · rw [dockingStateAt_dragStep_of_ne h]
      unfold initializeDragging
      rw [dockingStateAt_updateEntry_of_ne h, dockingStateAt_setEntry_of_ne h]
    · rw [dockingStateAt_setEntry_of_ne h]

theorem dockingStateAt_onDockable_of_ne {m : VideoManager} {i j : Nat}
    (h : ¬ i = j) (p : PosEntry) (env : Env) :
    dockingStateAt (onDockablePositionChanged m i p env) j =
      dockingStateAt m j := by
  rw [onDockablePositionChanged]
  cases hE : entryAt m i with
  | none => rfl
  | some e0 =>
    dsimp only
    split_ifs with hguard houter hinit
    · rw [dockingStateAt_setEntry_of_ne h]
    · cases hE2 : entryAt
          (initializeDocking (setEntry m i (updateDockableVideoPosition e0 p env)) i) i with
      | none =>
        rw [dockingStateAt_initializeDocking_of_ne h,
          dockingStateAt_setEntry_of_ne h]
      | some e1 =>
        dsimp only
        split_ifs with hni
        · rw [dockingStateAt_animateDocking_of_ne h,
            dockingStateAt_initializeDocking_of_ne h,
            dockingStateAt_setEntry_of_ne h]
        · rw [dockingStateAt_initializeDocking_of_ne h,
            dockingStateAt_setEntry_of_ne h]
    · cases hE2 : entryAt (setEntry m i (updateDockableVideoPosition e0 p env)) i with
      | none => rw [dockingStateAt_setEntry_of_ne h]
      | some e1 =>
        dsimp only
        split_ifs with hni
        · rw [dockingStateAt_animateDocking_of_ne h,
            dockingStateAt_setEntry_of_ne h]
        · rw [dockingStateAt_setEntry_of_ne h]
    · rw [dockingStateAt_finishDocking_of_ne h, dockingStateAt_setEntry_of_ne h]
    · rw [dockingStateAt_setEntry_of_ne h]

theorem dockingStateAt_resizeHandler_of_ne {m : VideoManager} {i j : Nat}
    (h : ¬ i = j) (r : Rect) (env : Env) :
    dockingStateAt (resizeHandler m i r env) j = dockingStateAt m j := by
  rw [resizeHandler]
  cases hE : entryAt m i with
  | none => rfl
  | some e =>
    dsimp only
    split
    · rw [dockingStateAt_setEntry_of_ne h]
    · rw [dockingStateAt_onDockable_of_ne h, dockingStateAt_setEntry_of_ne h]

theorem updateDockableVideoPosition_dockingState (e : VideoEntry)
    (p : PosEntry) (env : Env) :
    (updateDockableVideoPosition e p env).dockingState = e.dockingState := rfl

theorem canDock_setEntry (m : VideoManager) (i j : Nat) (e : VideoEntry) :
    canDock (setEntry m i e) j ↔ canDock m j := Iff.rfl

theorem dockingStateAt_setEntry_self {m : VideoManager} {i : Nat}
    {e : VideoEntry} (he : entryAt m i = some e) (e' : VideoEntry) :
    dockingStateAt (setEntry m i e') i = some e'.dockingState := by
  unfold dockingStateAt
  rw [entryAt_setEntry_self he]
  rfl

theorem dockingStateAt_finishDocking_self {m : VideoManager} {i : Nat}
    {e : VideoEntry} (he : entryAt m i = some e) :
    dockingStateAt (finishDocking m i) i = some DockingState.INLINE := by
  rw [finishDocking]
  have h1 := entryAt_updateEntry_self he finishDockingEntry
  have h2 : entryAt (unregisterDocked (updateEntry m i finishDockingEntry)) i =
      some { finishDockingEntry e with hasBeenInViewBefore := false } := by
    rw [entryAt_unregisterDocked, h1]
    rfl
  unfold dockingStateAt
  rw [entryAt_updateEntry_self h2]
  rfl

theorem dockingStateAt_dragStep_inline {m : VideoManager} {i : Nat}
    {env : Env} {e : VideoEntry} (he : entryAt m i = some e)
    (hst : e.dockingState = DockingState.INLINE) :
    dockingStateAt (dragStep m i env) i = some DockingState.INLINE := by
  rw [dragStep, he]
  dsimp only
  rw [if_pos (Or.inr (Or.inr (Or.inr (Or.inr (by simp [hst])))))]
  rw [dockingStateAt_setEntry_self he]
  simpa using hst

theorem dockingStateAt_onDockable_inline {m : VideoManager} {i : Nat}
    {p : PosEntry} {env : Env}
    (hst : dockingStateAt m i = some DockingState.INLINE)
    (hcd : ¬ canDock m i) :
    dockingStateAt (onDockablePositionChanged m i p env) i =
      some DockingState.INLINE := by
  obtain ⟨e0, hE, hst0⟩ := Option.map_eq_some'.mp hst
  rw [onDockablePositionChanged, hE]
  dsimp only
  have hstU : (updateDockableVideoPosition e0 p env).dockingState =
      DockingState.INLINE := by
    rw [updateDockableVideoPosition_dockingState, hst0]
  split_ifs with hguard houter hinit
  · rw [dockingStateAt_setEntry_self hE]
    exact congrArg some hstU
  · exact absurd hinit.2 hcd
  · rw [entryAt_setEntry_self hE]
    dsimp only
    rw [if_neg (by simp [hstU])]
    rw [dockingStateAt_setEntry_self hE]
    exact congrArg some hstU
  · exact dockingStateAt_finishDocking_self (entryAt_setEntry_self hE _)
  · rw [dockingStateAt_setEntry_self hE]
    exact congrArg some hstU

theorem dockingStateAt_resizeHandler_inline {m : VideoManager} {i : Nat}
    {r : Rect} {env : Env}
    (hst : dockingStateAt m i = some DockingState.INLINE)
    (hcd : ¬ canDock m i) :
    dockingStateAt (resizeHandler m i r env) i = some DockingState.INLINE := by
  rw [resizeHandler]
  cases hE : entryAt m i with
  | none => exact hst
  | some e =>
    dsimp only
    split
    · rw [dockingStateAt_setEntry_self hE]
    · refine dockingStateAt_onDockable_inline ?_ ?_
      · rw [dockingStateAt_setEntry_self hE]
      · exact hcd

theorem entryAt_register_of_some {m : VideoManager} {spec : VideoSpec}
    {r : Rect} {f : Option ℚ} {ltr : Bool} {i : Nat} {e : VideoEntry}
    (he : entryAt m i = some e) :
    entryAt ((register m spec r f ltr).1) i = some e := by
  rw [register]
  dsimp only
  split_ifs with hp
  · exact he
  · unfold entryAt at he ⊢
    cases hme : m.entries with
    | none =>
      rw [hme] at he
      exact absurd he (by simp)
    | some l =>
      rw [hme] at he
      dsimp only at he ⊢
      have hlt : i < l.length := by
        by_contra hge
        rw [List.getElem?_eq_none (Nat.le_of_not_lt hge)] at he
        exact absurd he (by simp)
      rw [List.getElem?_append]
      simp only [Option.getD]
      rw [if_pos hlt]
      exact he

theorem dockingStateAt_updateEntry_pres {m : VideoManager} {j : Nat}
    {f : VideoEntry → VideoEntry}
    (hf : ∀ e, (f e).dockingState = e.dockingState) (i : Nat) :
    dockingStateAt (updateEntry m j f) i = dockingStateAt m i := by
  by_cases hji : j = i
  · subst hji
    cases hE : entryAt m j with
    | none => rw [updateEntry_of_none hE]
    | some e =>
      unfold dockingStateAt
      rw [entryAt_updateEntry_self hE, hE]
      simp [hf]
  · rw [dockingStateAt_updateEntry_of_ne hji]

theorem dockingStateAt_step_inline {m : VideoManager} {i : Nat} (ev : VMEvent)
    (hst : dockingStateAt m i = some DockingState.INLINE)
    (hcd : ¬ canDock m i) :
    dockingStateAt (step m ev) i = some DockingState.INLINE := by
  obtain ⟨e, hE, hstE⟩ := Option.map_eq_some'.mp hst
  cases ev with
  | register spec r f ltr =>
    rw [step]
    unfold dockingStateAt
    rw [entryAt_register_of_some hE]
    simp [hstE]
  | videoLoaded j hint f =>
    rw [step]
    rw [dockingStateAt_updateEntry_pres (fun e' => ?_) i]
    · exact hst
    · rfl
  | videoPlayed j =>
    rw [step]
    rw [dockingStateAt_updateEntry_pres (fun e' => ?_) i]
    · exact hst
    · rfl
  | videoPaused j =>
    rw [step]
    rw [dockingStateAt_updateEntry_pres (fun e' => ?_) i]
    · exact hst
    · rfl
  | positionChange j p env =>
    rw [step]
    cases hEj : entryAt m j with
    | none => exact hst
    | some ej =>
      dsimp only
      split_ifs with hdockable
      · by_cases hji : j = i
        · subst hji
          exact dockingStateAt_onDockable_inline hst hcd
        · rw [dockingStateAt_onDockable_of_ne hji]
          exact hst
      · exact hst
  | resize j r env =>
    rw [step]
    cases hEj : entryAt m j with
    | none => exact hst
    | some ej =>
      dsimp only
      split_ifs with hdockable
      · by_cases hji : j = i
        · subst hji
          exact dockingStateAt_resizeHandler_inline hst hcd
        · rw [dockingStateAt_resizeHandler_of_ne hji]
          exact hst
      · exact hst
  | dragTick j env =>
    rw [step]
    cases hEj : entryAt m j with
    | none => exact hst
    | some ej =>
      dsimp only
      split_ifs with hsched
      · by_cases hji : j = i
        · subst hji
          have : ej = e := by
            rw [hEj] at hE
            injection hE
          exact dockingStateAt_dragStep_inline hEj (by rw [this, hstE])
        · rw [dockingStateAt_dragStep_of_ne hji]
          exact hst
      · exact hst
  | pointerDown j t p =>
    rw [step, pointerDown]
    rw [dockingStateAt_updateEntry_pres (fun e' => ?_) i]
    · exact hst
    · dsimp only
      split_ifs <;> rfl
  | pointerMove j t p =>
    rw [step, pointerMove]
    rw [dockingStateAt_updateEntry_pres (fun e' => ?_) i]
    · exact hst
    · dsimp only
      split_ifs <;> rfl
  | pointerUp j =>
    rw [step, pointerUp]
    rw [dockingStateAt_updateEntry_pres (fun e' => ?_) i]
    · exact hst
    · dsimp only
      split_ifs <;> rfl
  | snapComplete j =>
    rw [step, snapComplete]
    rw [dockingStateAt_updateEntry_pres (fun e' => ?_) i]
    · exact hst
    · cases e'.pendingSnap <;> rfl

/-! ## Claim C1: the single-docked-video invariant -/

/-- C1: for every sequence of registration, load/play/pause,
position-change, drag, resize, pointer and snap events, at most one
registered entry is out of the `INLINE` docking state at any time, and an
entry that leaves `INLINE` on an event could only do so while the
manager's docked slot was free or already referred to it (`canDock`). -/
theorem single_docked_invariant (evs : List VMEvent) (ev : VMEvent)
    (i j : Nat)
    (hi : entryNonInline (step (runEvents evs) ev) i = true)
    (hj : entryNonInline (step (runEvents evs) ev) j = true) :
    i = j
    ∧ (dockingStateAt (runEvents evs) i = some DockingState.INLINE →
        canDock (runEvents evs) i) := by
  have hInv : DockInvariant (step (runEvents evs) ev) :=
    dockInvariant_step ev (dockInvariant_runEvents evs)
  have decode : ∀ k, entryNonInline (step (runEvents evs) ev) k = true →
      ∃ e, entryAt (step (runEvents evs) ev) k = some e
        ∧ e.dockingState ≠ DockingState.INLINE := by
    intro k hk
    unfold entryNonInline at hk
    revert hk
    cases hE : entryAt (step (runEvents evs) ev) k with
    | none => intro hk; exact absurd hk (by simp)
    | some e => intro hk; exact ⟨e, rfl, by simpa using hk⟩
  obtain ⟨ei, hei, hmi⟩ := decode i hi
  obtain ⟨ej, hej, hmj⟩ := decode j hj
  constructor
  · have h1 := hInv i ei hei (Or.inl hmi)
    have h2 := hInv j ej hej (Or.inl hmj)
    rw [h1] at h2
    injection h2
  · intro hstI
    by_contra hcd
    have hkeep := dockingStateAt_step_inline ev hstI hcd
    rw [dockingStateAt, hei] at hkeep
    exact hmi (by simpa using hkeep)

/-- Witness for C1: in the concrete scenario the video is inline after the
prefix, the docked slot is free, and the top-edge position change docks
it. -/
theorem single_docked_invariant_witness :
    entryNonInline (step (runEvents scenarioPrefix) scenarioDockEvent) 0 = true
    ∧ (0 = 0
      ∧ (dockingStateAt (runEvents scenarioPrefix) 0 =
            some DockingState.INLINE →
          canDock (runEvents scenarioPrefix) 0)) := by
  have hni : entryNonInline (step (runEvents scenarioPrefix) scenarioDockEvent)
      0 = true := by
    norm_num +decide [runEvents, step, initManager, register,
      registerCommonActions, mkEntry, scenarioPrefix, scenarioDockEvent,
      scenarioSpec, scenarioRect, scenarioEnv, scenarioPosInside,
      scenarioPosTop, scenarioViewport, updateEntry, setEntry, entryAt,
      entryNonInline, computeVisible, VISIBILITY_PERCENT,
      onDockablePositionChanged, updateDockableVideoPosition, Rect.bottom,
      VideoEntry.getPlayingState, canDock, initializeDocking,
      initializeDockingEntry, registerDocked, animateDocking,
      animateDockingStyled, initializeDragging, installDrag, dragStep,
      dragPointerEntry, dragFreeEntry, dragSnapAndMove, snapAndMoveEntry,
      calcSnapCorner, finishDocking, finishDockingEntry, unregisterDocked,
      dockTransformScale, scrollMap, mapRange, DOCK_SCALE, DOCK_MARGIN,
      FRICTION_COEFF, STOP_THRESHOLD, calcDockOffsetXLeft,
      calcDockOffsetXRight, calcDockOffsetYTop, calcDockOffsetYBottom,
      setStyles, setStyle, dragMoveStyles, stPx, stTranslate, stScale,
      DragCoordinates.zero]
  exact ⟨hni, single_docked_invariant scenarioPrefix scenarioDockEvent
    0 0 hni hni⟩

/-! ## Claim C2: visibility threshold -/

/-- C2: for every intersection ratio delivered to `updateVisibility`, the
computed visibility flag equals `ratio * 100 ≥ 75`; a non-finite ratio is
treated as 0 (hence not visible), and a ratio of exactly 3/4 (75%) yields
`isVisible = true`. -/
theorem visibility_threshold (r : ℚ) :
    (computeVisible (some r) = true ↔ r * 100 ≥ 75)
    ∧ computeVisible none = false
    ∧ computeVisible (some (3/4)) = true := by
  refine ⟨?_, by rfl, by norm_num [computeVisible, VISIBILITY_PERCENT]⟩
  simp [computeVisible, VISIBILITY_PERCENT]

/-! ## Claim C3: docking scale is the linear range map -/

/-- C3: during the docking animation the applied scale factor
`scrollMap_(DOCK_SCALE, 1)` is the linear map of `visibleHeight` from
`[0, initialHeight]` to `[DOCK_SCALE, 1]`: it is `DOCK_SCALE` at 0, `1` at
the initial height, and strictly increasing in the visible height. -/
theorem docking_scale_linear (h v₁ v₂ : ℚ) (hh : 0 < h) (hv : v₁ < v₂) :
    dockTransformScale 0 h = DOCK_SCALE
    ∧ dockTransformScale h h = 1
    ∧ dockTransformScale v₁ h < dockTransformScale v₂ h := by
  have hne : h ≠ 0 := ne_of_gt hh
  unfold dockTransformScale scrollMap mapRange DOCK_SCALE
  simp only [if_neg Bool.false_ne_true, sub_zero]
  refine ⟨by ring, ?_, ?_⟩
  · field_simp
    ring
  · have hmul : v₁ * (1 - 6/10) < v₂ * (1 - 6/10) := by nlinarith
    exact add_lt_add_left ((div_lt_div_iff_of_pos_right hh).mpr hmul) _

/-- Witness for C3 at a concrete initial height of 200px. -/
theorem docking_scale_linear_witness :
    dockTransformScale 0 200 = DOCK_SCALE
    ∧ dockTransformScale 200 200 = 1
    ∧ dockTransformScale 0 200 < dockTransformScale 100 200 :=
  docking_scale_linear 200 0 100 (by norm_num) (by norm_num)

/-! ## Claim C10: actions are wired before the platform check -/

/-- C10: `register` wires the common action bindings (play, pause, mute,
unmute) before the `supportsPlatform()` check, so a video on an unsupported
platform still has its four actions registered while the manager state
(in particular the entry list) is unchanged. -/
theorem register_actions_on_unsupported_platform (m : VideoManager)
    (spec : VideoSpec) (r : Rect) (visFrac : Option ℚ) (ltr : Bool)
    (h : spec.supportsPlatform = false) :
    (register m spec r visFrac ltr).2 =
      [("play", "MEDIUM"), ("pause", "MEDIUM"),
       ("mute", "MEDIUM"), ("unmute", "MEDIUM")]
    ∧ (register m spec r visFrac ltr).1 = m := by
  simp [register, registerCommonActions, h]

/-- Witness for C10 on a fresh manager and an unsupported video. -/
theorem register_actions_on_unsupported_platform_witness :
    (register initManager ⟨0, false, false, false⟩ ⟨0, 0, 0, 0⟩ none true).2 =
      [("play", "MEDIUM"), ("pause", "MEDIUM"),
       ("mute", "MEDIUM"), ("unmute", "MEDIUM")]
    ∧ (register initManager ⟨0, false, false, false⟩ ⟨0, 0, 0, 0⟩ none true).1 =
      initManager :=
  register_actions_on_unsupported_platform initManager
    ⟨0, false, false, false⟩ ⟨0, 0, 0, 0⟩ none true rfl

/-! ## Claim C9: querying an unregistered video -/

/-- Counterexample to C9 as stated: on a manager whose only `register` call
was skipped by the `supportsPlatform()` check, the entry list is still
`null` (the `this.entries_ = this.entries_ || []` initialization sits after
the early return), so `getPlayingState`/`userInteractedWithAutoPlay` on
that very video crash dereferencing `null` (a `TypeError`), not through the
`dev().assert` developer assertion the claim promises. -/
theorem unregistered_lookup_counterexample :
    isRegistered skippedOnlyManager 0 = false
    ∧ getPlayingStateOf skippedOnlyManager 0 =
        Except.error LookupFailure.nullTypeError
    ∧ failsWithDevAssert (getPlayingStateOf skippedOnlyManager 0) = false
    ∧ failsWithDevAssert (userInteractedWithAutoPlayOf skippedOnlyManager 0) =
        false :=
  ⟨rfl, rfl, rfl, rfl⟩

/-- C9 (amended): a lookup for a video that was never registered always
fails fatally — with the developer assertion whenever the entry list exists
(at least one video registered successfully), and with a `TypeError` on the
`null` entry list otherwise; it never returns a playing state or boolean. -/
theorem unregistered_lookup_fails (m : VideoManager) (v : Nat)
    (h : isRegistered m v = false) :
    (∃ f, getPlayingStateOf m v = Except.error f)
    ∧ (∃ f, userInteractedWithAutoPlayOf m v = Except.error f)
    ∧ (m.entries = none →
        getPlayingStateOf m v = Except.error LookupFailure.nullTypeError)
    ∧ (∀ l, m.entries = some l →
        getPlayingStateOf m v = Except.error
          (LookupFailure.devAssert
            "video is not registered to this video manager")
        ∧ userInteractedWithAutoPlayOf m v = Except.error
          (LookupFailure.devAssert
            "video is not registered to this video manager")) := by
  cases hm : m.entries with
  | none =>
    have hps : getPlayingStateOf m v = Except.error LookupFailure.nullTypeError := by
      simp [getPlayingStateOf, getEntryForVideo, hm, Except.map]
    have hui : userInteractedWithAutoPlayOf m v =
        Except.error LookupFailure.nullTypeError := by
      simp [userInteractedWithAutoPlayOf, getEntryForVideo, hm, Except.map]
    exact ⟨⟨_, hps⟩, ⟨_, hui⟩, fun _ => hps, fun l hl => by simp [hm] at hl⟩
  | some l =>
    have hfind : l.find? (fun e => e.videoId == v) = none := by
      rw [List.find?_eq_none]
      intro x hx
      have hx' := (List.any_eq_false (l := l)).mp
        (by rw [isRegistered, hm] at h; exact h) x hx
      simpa using hx'
    have hps : getPlayingStateOf m v = Except.error
        (LookupFailure.devAssert
          "video is not registered to this video manager") := by
      simp [getPlayingStateOf, getEntryForVideo, hm, hfind, Except.map]
    have hui : userInteractedWithAutoPlayOf m v = Except.error
        (LookupFailure.devAssert
          "video is not registered to this video manager") := by
      simp [userInteractedWithAutoPlayOf, getEntryForVideo, hm, hfind, Except.map]
    exact ⟨⟨_, hps⟩, ⟨_, hui⟩, fun hnone => by simp [hm] at hnone,
      fun l' _ => ⟨hps, hui⟩⟩

/-! ## Claim C5: snap corner selection -/

theorem calcSnapCorner_eq_TOP_LEFT (px py w ht vw vh : ℚ) :
    calcSnapCorner px py w ht vw vh = MinimizePosition.TOP_LEFT
      ↔ px + w/2 < vw/2 ∧ py + ht/2 < vh/2 := by
  unfold calcSnapCorner
  dsimp only
  split_ifs with h1 h2 h3
  · simp only [reduceCtorEq, false_iff, not_and, not_lt]
    intro hA
    linarith
  · simp only [reduceCtorEq, false_iff, not_and, not_lt]
    intro hA
    linarith
  · simp only [reduceCtorEq, false_iff, not_and, not_lt]
    intro hA
    linarith
  · push_neg at h1 h3
    simp only [eq_self_iff_true, true_iff]
    exact ⟨h1, h3⟩

theorem calcSnapCorner_eq_TOP_RIGHT (px py w ht vw vh : ℚ) :
    calcSnapCorner px py w ht vw vh = MinimizePosition.TOP_RIGHT
      ↔ vw/2 ≤ px + w/2 ∧ py + ht/2 < vh/2 := by
  unfold calcSnapCorner
  dsimp only
  split_ifs with h1 h2 h3
  · simp only [reduceCtorEq, false_iff, not_and, not_lt]
    intro hA
    linarith
  · push_neg at h2
    simp only [eq_self_iff_true, true_iff]
    exact ⟨h1, h2⟩
  · simp only [reduceCtorEq, false_iff, not_and, not_lt]
    intro hA
    linarith
  · simp only [reduceCtorEq, false_iff, not_and, not_lt]
    intro hA
    linarith

theorem calcSnapCorner_eq_BOTTOM_LEFT (px py w ht vw vh : ℚ) :
    calcSnapCorner px py w ht vw vh = MinimizePosition.BOTTOM_LEFT
      ↔ px + w/2 < vw/2 ∧ vh/2 ≤ py + ht/2 := by
  unfold calcSnapCorner
  dsimp only
  split_ifs with h1 h2 h3
  · simp only [reduceCtorEq, false_iff, not_and, not_le]
    intro hA
    linarith
  · simp only [reduceCtorEq, false_iff, not_and, not_le]
    intro hA
    linarith
  · push_neg at h1
    simp only [eq_self_iff_true, true_iff]
    exact ⟨h1, h3⟩
  · simp only [reduceCtorEq, false_iff, not_and, not_le]
    intro hA
    linarith

theorem calcSnapCorner_eq_BOTTOM_RIGHT (px py w ht vw vh : ℚ) :
    calcSnapCorner px py w ht vw vh = MinimizePosition.BOTTOM_RIGHT
      ↔ vw/2 ≤ px + w/2 ∧ vh/2 ≤ py + ht/2 := by
  unfold calcSnapCorner
  dsimp only
  split_ifs with h1 h2 h3
  · simp only [eq_self_iff_true, true_iff]
    exact ⟨h1, h2⟩
  · simp only [reduceCtorEq, false_iff, not_and, not_le]
    intro hA
    linarith
  · simp only [reduceCtorEq, false_iff, not_and, not_le]
    intro hA
    linarith
  · simp only [reduceCtorEq, false_iff, not_and, not_le]
    intro hA
    linarith

theorem calcSnapCorner_ne_INLINE (px py w ht vw vh : ℚ) :
    calcSnapCorner px py w ht vw vh ≠ MinimizePosition.INLINE := by
  unfold calcSnapCorner
  dsimp only
  split_ifs <;> simp

/-- C5: when free (neither dragged nor mid-snap) and both axis velocities
are at or below the stop threshold, the drag tick sets the snap target to
`calcSnapCorner` of the element's center, which is always one of the four
corners, chosen by the deterministic four-quadrant test against the
viewport's center; in particular a center of (10, 10) in an 800x600
viewport yields `TOP_LEFT`. -/
theorem snap_corner_selection (m : VideoManager) (i : Nat) (env : Env)
    (e : VideoEntry) (he : entryAt m i = some e)
    (hl : e.loaded = true) (hint : e.hasInternalElement = true)
    (hvh : e.visibleHeight = 0) (hcls : e.internalHasDockClass = true)
    (hst : e.dockingState = DockingState.DOCKED)
    (hdrag : e.isDragging = false) (hsnap : e.isSnapping = false)
    (hdism : e.isDismissed = false)
    (hvx : |e.drag.velocity.x * FRICTION_COEFF| ≤ STOP_THRESHOLD)
    (hvy : |e.drag.velocity.y * FRICTION_COEFF| ≤ STOP_THRESHOLD)
    (px py w ht vw vh : ℚ) :
    minimizePositionAt (dragStep m i env) i = some
      (calcSnapCorner (e.drag.position.x + e.drag.velocity.x)
        (e.drag.position.y + e.drag.velocity.y)
        env.minimizedRect.width env.minimizedRect.height
        env.viewportWidth env.viewportHeight)
    ∧ calcSnapCorner px py w ht vw vh ≠ MinimizePosition.INLINE
    ∧ (calcSnapCorner px py w ht vw vh = MinimizePosition.TOP_LEFT
        ↔ px + w/2 < vw/2 ∧ py + ht/2 < vh/2)
    ∧ (calcSnapCorner px py w ht vw vh = MinimizePosition.TOP_RIGHT
        ↔ vw/2 ≤ px + w/2 ∧ py + ht/2 < vh/2)
    ∧ (calcSnapCorner px py w ht vw vh = MinimizePosition.BOTTOM_LEFT
        ↔ px + w/2 < vw/2 ∧ vh/2 ≤ py + ht/2)
    ∧ (calcSnapCorner px py w ht vw vh = MinimizePosition.BOTTOM_RIGHT
        ↔ vw/2 ≤ px + w/2 ∧ vh/2 ≤ py + ht/2)
    ∧ calcSnapCorner 0 0 20 20 800 600 = MinimizePosition.TOP_LEFT := by
  refine ⟨?_, calcSnapCorner_ne_INLINE px py w ht vw vh,
    calcSnapCorner_eq_TOP_LEFT px py w ht vw vh,
    calcSnapCorner_eq_TOP_RIGHT px py w ht vw vh,
    calcSnapCorner_eq_BOTTOM_LEFT px py w ht vw vh,
    calcSnapCorner_eq_BOTTOM_RIGHT px py w ht vw vh,
    by norm_num [calcSnapCorner]⟩
  rw [dragStep, he]
  dsimp only
  rw [if_neg (by simp [hl, hint, hvh, hcls, hst])]
  rw [if_neg (by simp [hdrag])]
  rw [if_neg (by simp [dragFreeEntry_isDismissed, hdism])]
  rw [dragSnapAndMove, minimizePositionAt, entryAt_setEntry]
  simp only [he, Option.isSome_some, and_self, if_pos, Option.map_some']
  rw [snapAndMoveEntry_minimizePosition_of]
  · simp [dragFreeEntry]
  · simp [dragFreeEntry, hdrag]
  · simp [dragFreeEntry, hsnap]
  · simpa [dragFreeEntry] using hvx
  · simpa [dragFreeEntry] using hvy

/-- Witness for C5 on the concrete free-moving docked entry, with the
quadrant test instantiated at center (10, 10) in an 800x600 viewport. -/
theorem snap_corner_selection_witness :
    minimizePositionAt (dragStep freeTickManager 0 scenarioEnv) 0 = some
      (calcSnapCorner
        (freeTickEntry.drag.position.x + freeTickEntry.drag.velocity.x)
        (freeTickEntry.drag.position.y + freeTickEntry.drag.velocity.y)
        scenarioEnv.minimizedRect.width scenarioEnv.minimizedRect.height
        scenarioEnv.viewportWidth scenarioEnv.viewportHeight)
    ∧ calcSnapCorner 0 0 20 20 800 600 ≠ MinimizePosition.INLINE
    ∧ (calcSnapCorner 0 0 20 20 800 600 = MinimizePosition.TOP_LEFT
        ↔ (0:ℚ) + 20/2 < 800/2 ∧ (0:ℚ) + 20/2 < 600/2)
    ∧ (calcSnapCorner 0 0 20 20 800 600 = MinimizePosition.TOP_RIGHT
        ↔ (800:ℚ)/2 ≤ 0 + 20/2 ∧ (0:ℚ) + 20/2 < 600/2)
    ∧ (calcSnapCorner 0 0 20 20 800 600 = MinimizePosition.BOTTOM_LEFT
        ↔ (0:ℚ) + 20/2 < 800/2 ∧ (600:ℚ)/2 ≤ 0 + 20/2)
    ∧ (calcSnapCorner 0 0 20 20 800 600 = MinimizePosition.BOTTOM_RIGHT
        ↔ (800:ℚ)/2 ≤ 0 + 20/2 ∧ (600:ℚ)/2 ≤ 0 + 20/2)
    ∧ calcSnapCorner 0 0 20 20 800 600 = MinimizePosition.TOP_LEFT :=
  snap_corner_selection freeTickManager 0 scenarioEnv freeTickEntry
    rfl rfl rfl rfl rfl rfl rfl rfl rfl
    (by norm_num [freeTickEntry, mkEntry, DragCoordinates.zero,
      FRICTION_COEFF, STOP_THRESHOLD, abs_le])
    (by norm_num [freeTickEntry, mkEntry, DragCoordinates.zero,
      FRICTION_COEFF, STOP_THRESHOLD, abs_le])
    0 0 20 20 800 600

/-! ## Claim C4: free-motion friction decay -/

/-- C4: on a free-motion tick (not touched, not dragging) that passes the
drag-loop guard, position is incremented by velocity and each velocity
component is multiplied by `FRICTION_COEFF`, a constant strictly between 0
and 1; hence each axis speed strictly decreases while above
`STOP_THRESHOLD`, and after enough such multiplications both axis speeds
are at or below the threshold. -/
theorem free_motion_friction (m : VideoManager) (i : Nat) (env : Env)
    (e : VideoEntry) (he : entryAt m i = some e)
    (hl : e.loaded = true) (hint : e.hasInternalElement = true)
    (hvh : e.visibleHeight = 0) (hcls : e.internalHasDockClass = true)
    (hst : e.dockingState = DockingState.DOCKED)
    (htouch : e.isTouched = false) (hdrag : e.isDragging = false)
    (hdism : e.isDismissed = false) :
    (dragAt (dragStep m i env) i).map DragCoordinates.position =
      some ⟨e.drag.position.x + e.drag.velocity.x,
            e.drag.position.y + e.drag.velocity.y⟩
    ∧ (dragAt (dragStep m i env) i).map DragCoordinates.velocity =
      some ⟨e.drag.velocity.x * FRICTION_COEFF,
            e.drag.velocity.y * FRICTION_COEFF⟩
    ∧ 0 < FRICTION_COEFF ∧ FRICTION_COEFF < 1
    ∧ (STOP_THRESHOLD < |e.drag.velocity.x| →
        |e.drag.velocity.x * FRICTION_COEFF| < |e.drag.velocity.x|)
    ∧ (STOP_THRESHOLD < |e.drag.velocity.y| →
        |e.drag.velocity.y * FRICTION_COEFF| < |e.drag.velocity.y|)
    ∧ (∃ n : ℕ, |e.drag.velocity.x| * FRICTION_COEFF ^ n ≤ STOP_THRESHOLD
        ∧ |e.drag.velocity.y| * FRICTION_COEFF ^ n ≤ STOP_THRESHOLD) := by
  have hcoeff0 : (0:ℚ) < FRICTION_COEFF := by norm_num [FRICTION_COEFF]
  have hcoeff1 : FRICTION_COEFF < 1 := by norm_num [FRICTION_COEFF]
  have hupd : (dragAt (dragStep m i env) i).map DragCoordinates.position =
      some ⟨e.drag.position.x + e.drag.velocity.x,
            e.drag.position.y + e.drag.velocity.y⟩
      ∧ (dragAt (dragStep m i env) i).map DragCoordinates.velocity =
      some ⟨e.drag.velocity.x * FRICTION_COEFF,
            e.drag.velocity.y * FRICTION_COEFF⟩ := by
    rw [dragStep, he]
    dsimp only
    rw [if_neg (by simp [hl, hint, hvh, hcls, hst])]
    rw [if_neg (by simp [hdrag])]
    rw [if_neg (by simp [dragFreeEntry_isDismissed, hdism])]
    rw [dragSnapAndMove]
    constructor <;>
      simp [dragAt, entryAt_setEntry, he, snapAndMoveEntry_drag, dragFreeEntry]
  have hdecX : STOP_THRESHOLD < |e.drag.velocity.x| →
      |e.drag.velocity.x * FRICTION_COEFF| < |e.drag.velocity.x| := by
    intro hgt
    rw [abs_mul]
    have habs : |FRICTION_COEFF| = FRICTION_COEFF := abs_of_pos hcoeff0
    rw [habs]
    have h10 : (0:ℚ) < STOP_THRESHOLD := by norm_num [STOP_THRESHOLD]
    nlinarith [abs_nonneg e.drag.velocity.x]
  have hdecY : STOP_THRESHOLD < |e.drag.velocity.y| →
      |e.drag.velocity.y * FRICTION_COEFF| < |e.drag.velocity.y| := by
    intro hgt
    rw [abs_mul]
    have habs : |FRICTION_COEFF| = FRICTION_COEFF := abs_of_pos hcoeff0
    rw [habs]
    have h10 : (0:ℚ) < STOP_THRESHOLD := by norm_num [STOP_THRESHOLD]
    nlinarith [abs_nonneg e.drag.velocity.y]
  have hstop : ∃ n : ℕ,
      |e.drag.velocity.x| * FRICTION_COEFF ^ n ≤ STOP_THRESHOLD
      ∧ |e.drag.velocity.y| * FRICTION_COEFF ^ n ≤ STOP_THRESHOLD := by
    by_cases hcase : |e.drag.velocity.x| ≤ STOP_THRESHOLD
        ∧ |e.drag.velocity.y| ≤ STOP_THRESHOLD
    · exact ⟨0, by simpa using hcase.1, by simpa using hcase.2⟩
    · have hMx : (0:ℚ) ≤ |e.drag.velocity.x| := abs_nonneg _
      have hMy : (0:ℚ) ≤ |e.drag.velocity.y| := abs_nonneg _
      have hMpos : 0 < max |e.drag.velocity.x| |e.drag.velocity.y| := by
        rcases not_and_or.mp hcase with hx | hy
        · have hx' := lt_of_not_le hx
          have h10 : (0:ℚ) < STOP_THRESHOLD := by norm_num [STOP_THRESHOLD]
          exact lt_of_lt_of_le (lt_trans h10 hx') (le_max_left _ _)
        · have hy' := lt_of_not_le hy
          have h10 : (0:ℚ) < STOP_THRESHOLD := by norm_num [STOP_THRESHOLD]
          exact lt_of_lt_of_le (lt_trans h10 hy') (le_max_right _ _)
      obtain ⟨n, hn⟩ := exists_pow_lt_of_lt_one
        (div_pos (by norm_num [STOP_THRESHOLD] :
          (0:ℚ) < STOP_THRESHOLD) hMpos) hcoeff1
      refine ⟨n, ?_, ?_⟩
      · have h1 : |e.drag.velocity.x| * FRICTION_COEFF ^ n ≤
            max |e.drag.velocity.x| |e.drag.velocity.y| * FRICTION_COEFF ^ n :=
          mul_le_mul_of_nonneg_right (le_max_left _ _) (by positivity)
        have h2 : max |e.drag.velocity.x| |e.drag.velocity.y| * FRICTION_COEFF ^ n <
            max |e.drag.velocity.x| |e.drag.velocity.y| *
              (STOP_THRESHOLD / max |e.drag.velocity.x| |e.drag.velocity.y|) :=
          mul_lt_mul_of_pos_left hn hMpos
        have h3 : max |e.drag.velocity.x| |e.drag.velocity.y| *
            (STOP_THRESHOLD / max |e.drag.velocity.x| |e.drag.velocity.y|) =
            STOP_THRESHOLD := by
          field_simp
        linarith
      · have h1 : |e.drag.velocity.y| * FRICTION_COEFF ^ n ≤
            max |e.drag.velocity.x| |e.drag.velocity.y| * FRICTION_COEFF ^ n :=
          mul_le_mul_of_nonneg_right (le_max_right _ _) (by positivity)
        have h2 : max |e.drag.velocity.x| |e.drag.velocity.y| * FRICTION_COEFF ^ n <
            max |e.drag.velocity.x| |e.drag.velocity.y| *
              (STOP_THRESHOLD / max |e.drag.velocity.x| |e.drag.velocity.y|) :=
          mul_lt_mul_of_pos_left hn hMpos
        have h3 : max |e.drag.velocity.x| |e.drag.velocity.y| *
            (STOP_THRESHOLD / max |e.drag.velocity.x| |e.drag.velocity.y|) =
            STOP_THRESHOLD := by
          field_simp
        linarith
  exact ⟨hupd.1, hupd.2, hcoeff0, hcoeff1, hdecX, hdecY, hstop⟩

/-- Witness for C4 on the concrete free-moving docked entry. -/
theorem free_motion_friction_witness :
    (dragAt (dragStep freeTickManager 0 scenarioEnv) 0).map
        DragCoordinates.position =
      some ⟨freeTickEntry.drag.position.x + freeTickEntry.drag.velocity.x,
            freeTickEntry.drag.position.y + freeTickEntry.drag.velocity.y⟩
    ∧ (dragAt (dragStep freeTickManager 0 scenarioEnv) 0).map
        DragCoordinates.velocity =
      some ⟨freeTickEntry.drag.velocity.x * FRICTION_COEFF,
            freeTickEntry.drag.velocity.y * FRICTION_COEFF⟩
    ∧ 0 < FRICTION_COEFF ∧ FRICTION_COEFF < 1
    ∧ (STOP_THRESHOLD < |freeTickEntry.drag.velocity.x| →
        |freeTickEntry.drag.velocity.x * FRICTION_COEFF| <
          |freeTickEntry.drag.velocity.x|)
    ∧ (STOP_THRESHOLD < |freeTickEntry.drag.velocity.y| →
        |freeTickEntry.drag.velocity.y * FRICTION_COEFF| <
          |freeTickEntry.drag.velocity.y|)
    ∧ (∃ n : ℕ,
        |freeTickEntry.drag.velocity.x| * FRICTION_COEFF ^ n ≤ STOP_THRESHOLD
        ∧ |freeTickEntry.drag.velocity.y| * FRICTION_COEFF ^ n ≤
            STOP_THRESHOLD) :=
  free_motion_friction freeTickManager 0 scenarioEnv freeTickEntry
    rfl rfl rfl rfl rfl rfl rfl rfl rfl

/-! ## Claim C6: dragging tick and displacement -/

/-- C6: while actively dragging, a tick sets
`position = mouse − displacement`, saves the old position as `previous`,
and sets `velocity = position − previous`; the displacement is set at
touch-start (`mouse_(e, true)`) to the per-axis absolute offset between the
element's position and the pointer, and pointer moves never change it. -/
theorem dragging_tick_follows_pointer (m : VideoManager) (i : Nat)
    (env : Env) (e : VideoEntry) (he : entryAt m i = some e)
    (hl : e.loaded = true) (hint : e.hasInternalElement = true)
    (hvh : e.visibleHeight = 0) (hcls : e.internalHasDockClass = true)
    (hst : e.dockingState = DockingState.DOCKED)
    (hdrag : e.isDragging = true)
    (m₂ : VideoManager) (j : Nat) (e₂ : VideoEntry)
    (he₂ : entryAt m₂ j = some e₂)
    (hatt : e₂.listenersAttached = true) (hmask : e₂.draggingMask = true)
    (p : Vec2) (m₃ : VideoManager) (k : Nat) (t : Bool) (q : Vec2) :
    (dragAt (dragStep m i env) i).map DragCoordinates.position =
      some ⟨e.drag.mouse.x - e.drag.displacement.x,
            e.drag.mouse.y - e.drag.displacement.y⟩
    ∧ (dragAt (dragStep m i env) i).map DragCoordinates.previous =
      some e.drag.position
    ∧ (dragAt (dragStep m i env) i).map DragCoordinates.velocity =
      some ⟨(e.drag.mouse.x - e.drag.displacement.x) - e.drag.position.x,
            (e.drag.mouse.y - e.drag.displacement.y) - e.drag.position.y⟩
    ∧ (dragAt (pointerDown m₂ j true p) j).map DragCoordinates.displacement =
      some ⟨|e₂.drag.position.x - p.x|, |e₂.drag.position.y - p.y|⟩
    ∧ (dragAt (pointerMove m₃ k t q) k).map DragCoordinates.displacement =
      (dragAt m₃ k).map DragCoordinates.displacement := by
  refine ⟨?_, ?_, ?_, ?_, ?_⟩
  · rw [dragStep, he]
    dsimp only
    rw [if_neg (by simp [hl, hint, hvh, hcls, hst])]
    rw [if_pos hdrag]
    rw [dragSnapAndMove]
    simp [dragAt, entryAt_setEntry, he, snapAndMoveEntry_drag, dragPointerEntry]
  · rw [dragStep, he]
    dsimp only
    rw [if_neg (by simp [hl, hint, hvh, hcls, hst])]
    rw [if_pos hdrag]
    rw [dragSnapAndMove]
    simp [dragAt, entryAt_setEntry, he, snapAndMoveEntry_drag, dragPointerEntry]
  · rw [dragStep, he]
    dsimp only
    rw [if_neg (by simp [hl, hint, hvh, hcls, hst])]
    rw [if_pos hdrag]
    rw [dragSnapAndMove]
    simp [dragAt, entryAt_setEntry, he, snapAndMoveEntry_drag, dragPointerEntry]
  · rw [pointerDown, updateEntry, he₂]
    dsimp only
    rw [if_pos ⟨hatt, hmask⟩]
    simp [mouseUpdate, dragAt, entryAt_setEntry, he₂]
  · rw [pointerMove, updateEntry]
    cases hk : entryAt m₃ k with
    | none => rfl
    | some e₃ =>
      dsimp only
      by_cases hatt₃ : e₃.listenersAttached = true
      · rw [if_pos hatt₃]
        simp [mouseUpdate, dragAt, entryAt_setEntry, hk]
      · rw [if_neg hatt₃]
        simp [dragAt, entryAt_setEntry, hk]

/-- Witness for C6 on the concrete dragging entry, touch at (500, 400). -/
theorem dragging_tick_follows_pointer_witness :
    (dragAt (dragStep draggingManager 0 scenarioEnv) 0).map
        DragCoordinates.position =
      some ⟨draggingEntry.drag.mouse.x - draggingEntry.drag.displacement.x,
            draggingEntry.drag.mouse.y - draggingEntry.drag.displacement.y⟩
    ∧ (dragAt (dragStep draggingManager 0 scenarioEnv) 0).map
        DragCoordinates.previous = some draggingEntry.drag.position
    ∧ (dragAt (dragStep draggingManager 0 scenarioEnv) 0).map
        DragCoordinates.velocity =
      some ⟨(draggingEntry.drag.mouse.x - draggingEntry.drag.displacement.x)
              - draggingEntry.drag.position.x,
            (draggingEntry.drag.mouse.y - draggingEntry.drag.displacement.y)
              - draggingEntry.drag.position.y⟩
    ∧ (dragAt (pointerDown draggingManager 0 true ⟨500, 400⟩) 0).map
        DragCoordinates.displacement =
      some ⟨|draggingEntry.drag.position.x - (500:ℚ)|,
            |draggingEntry.drag.position.y - (400:ℚ)|⟩
    ∧ (dragAt (pointerMove draggingManager 0 false ⟨0, 0⟩) 0).map
        DragCoordinates.displacement =
      (dragAt draggingManager 0).map DragCoordinates.displacement :=
  dragging_tick_follows_pointer draggingManager 0 scenarioEnv draggingEntry
    rfl rfl rfl rfl rfl rfl rfl
    draggingManager 0 draggingEntry rfl rfl rfl
    ⟨500, 400⟩ draggingManager 0 false ⟨0, 0⟩

/-! ## Claim C7: the DOCKING to DOCKED transition -/

theorem dockTransformScale_eq_dock_scale_iff (vh h : ℚ) (hh : 0 < h) :
    dockTransformScale vh h = DOCK_SCALE ↔ vh = 0 := by
  have hne : h ≠ 0 := ne_of_gt hh
  unfold dockTransformScale scrollMap mapRange DOCK_SCALE
  simp only [if_neg Bool.false_ne_true, sub_zero]
  constructor
  · intro hEq
    have h40 : vh * (1 - 6/10) / h = 0 := by linarith
    have h40' : vh * (1 - 6/10) = 0 := by
      field_simp at h40
      linarith
    nlinarith
  · intro hv
    rw [hv]
    ring

/-- C7: `animateDocking_` moves the entry to `DOCKED` exactly when the
computed scroll-bound scale equals `DOCK_SCALE` (fully minimized); on that
entry the dock marker class is (still) present, the controls are (still)
hidden, and the drag controller is installed with its loop scheduled. -/
theorem docking_completes_at_dock_scale (m : VideoManager) (i : Nat)
    (env : Env) (e : VideoEntry) (he : entryAt m i = some e)
    (hl : e.loaded = true) (hint : e.hasInternalElement = true)
    (hcls : e.internalHasDockClass = true) (hctrl : e.controlsShown = false)
    (hdism : e.isDismissed = false)
    (hh : 0 < (e.initialRect.getD ⟨0, 0, 0, 0⟩).height) :
    (dockingStateAt (animateDocking m i env) i = some DockingState.DOCKED
      ↔ dockTransformScale e.visibleHeight
          (e.initialRect.getD ⟨0, 0, 0, 0⟩).height = DOCK_SCALE)
    ∧ (dockTransformScale e.visibleHeight
          (e.initialRect.getD ⟨0, 0, 0, 0⟩).height = DOCK_SCALE →
        dockClassAt (animateDocking m i env) i = some true
        ∧ controlsShownAt (animateDocking m i env) i = some false
        ∧ dragListenerInstalledAt (animateDocking m i env) i = some true
        ∧ dragLoopScheduledAt (animateDocking m i env) i = some true) := by
  have hvh0 := dockTransformScale_eq_dock_scale_iff e.visibleHeight
    (e.initialRect.getD ⟨0, 0, 0, 0⟩).height hh
  rw [animateDocking, he]
  dsimp only
  by_cases hscale : dockTransformScale e.visibleHeight
      (e.initialRect.getD ⟨0, 0, 0, 0⟩).height = DOCK_SCALE
  · rw [if_pos hscale]
    have hvh : e.visibleHeight = 0 := hvh0.mp hscale
    refine ⟨⟨fun _ => hscale, fun _ => ?_⟩, fun _ => ⟨?_, ?_, ?_, ?_⟩⟩
    · exact (dragStep_after_install _ i env _ (entryAt_setEntry_self he _)
        (by exact hl) (by exact hint) (by exact hvh) (by exact hcls)
        (by exact rfl) (by exact hctrl) (by exact hdism)).1
    · exact (dragStep_after_install _ i env _ (entryAt_setEntry_self he _)
        (by exact hl) (by exact hint) (by exact hvh) (by exact hcls)
        (by exact rfl) (by exact hctrl) (by exact hdism)).2.1
    · exact (dragStep_after_install _ i env _ (entryAt_setEntry_self he _)
        (by exact hl) (by exact hint) (by exact hvh) (by exact hcls)
        (by exact rfl) (by exact hctrl) (by exact hdism)).2.2.1
    · exact (dragStep_after_install _ i env _ (entryAt_setEntry_self he _)
        (by exact hl) (by exact hint) (by exact hvh) (by exact hcls)
        (by exact rfl) (by exact hctrl) (by exact hdism)).2.2.2.1
    · exact (dragStep_after_install _ i env _ (entryAt_setEntry_self he _)
        (by exact hl) (by exact hint) (by exact hvh) (by exact hcls)
        (by exact rfl) (by exact hctrl) (by exact hdism)).2.2.2.2
  · rw [if_neg hscale]
    refine ⟨?_, fun hc => absurd hc hscale⟩
    simp [dockingStateAt, entryAt_setEntry, he, hscale]

/-- Witness for C7 on a concrete mid-docking entry (initial height 200,
visible height 0, so the scale has reached `DOCK_SCALE`). -/
theorem docking_completes_at_dock_scale_witness :
    (dockingStateAt (animateDocking dockingAnimManager 0 scenarioEnv) 0 =
        some DockingState.DOCKED
      ↔ dockTransformScale dockingAnimEntry.visibleHeight
          (dockingAnimEntry.initialRect.getD ⟨0, 0, 0, 0⟩).height = DOCK_SCALE)
    ∧ (dockTransformScale dockingAnimEntry.visibleHeight
          (dockingAnimEntry.initialRect.getD ⟨0, 0, 0, 0⟩).height = DOCK_SCALE →
        dockClassAt (animateDocking dockingAnimManager 0 scenarioEnv) 0 =
          some true
        ∧ controlsShownAt (animateDocking dockingAnimManager 0 scenarioEnv) 0 =
          some false
        ∧ dragListenerInstalledAt
            (animateDocking dockingAnimManager 0 scenarioEnv) 0 = some true
        ∧ dragLoopScheduledAt
            (animateDocking dockingAnimManager 0 scenarioEnv) 0 = some true) :=
  docking_completes_at_dock_scale dockingAnimManager 0 scenarioEnv
    dockingAnimEntry rfl rfl rfl rfl rfl rfl
    (by norm_num [dockingAnimEntry, freeTickEntry, mkEntry])

/-! ## Claim C8: the undock step of the round trip -/

theorem finishDocking_projections (m : VideoManager) (i : Nat)
    (e : VideoEntry) (he : entryAt m i = some e) :
    dockClassAt (finishDocking m i) i = some false
    ∧ styleAt (finishDocking m i) i = some []
    ∧ controlsShownAt (finishDocking m i) i = some true
    ∧ dockingStateAt (finishDocking m i) i = some DockingState.INLINE
    ∧ (finishDocking m i).dockedVideo = none := by
  have he1 : entryAt (updateEntry m i finishDockingEntry) i =
      some (finishDockingEntry e) := entryAt_updateEntry_self he _
  have he2 : entryAt (unregisterDocked (updateEntry m i finishDockingEntry)) i =
      some { finishDockingEntry e with hasBeenInViewBefore := false } := by
    rw [entryAt_unregisterDocked, he1]
    rfl
  rw [finishDocking]
  refine ⟨?_, ?_, ?_, ?_, ?_⟩ <;>
    simp [dockClassAt, styleAt, controlsShownAt, dockingStateAt,
      entryAt_updateEntry_self he2, dockedVideo_updateEntry,
      dockedVideo_unregisterDocked, finishDockingEntry]

/-- C8: after a full `INLINE → DOCKING → DOCKED → finishDocking_` round
trip, the undock step removes the minimizing marker class, clears the
element's inline style attribute entirely (restoring the empty pre-dock
style baseline), restores the controls via `showControls`, resets the
docking state to `INLINE`, and releases the manager's docked-video slot. -/
theorem undock_round_trip (m : VideoManager) (i : Nat) (env : Env)
    (e : VideoEntry) (he : entryAt m i = some e)
    (hl : e.loaded = true) (hint : e.hasInternalElement = true)
    (hstyle : e.internalStyle = []) (hvh : e.visibleHeight = 0)
    (hh : 0 < (e.initialRect.getD ⟨0, 0, 0, 0⟩).height)
    (hdism : e.isDismissed = false) :
    dockingStateAt (initializeDocking m i) i = some DockingState.DOCKING
    ∧ dockingStateAt (animateDocking (initializeDocking m i) i env) i =
        some DockingState.DOCKED
    ∧ dockClassAt
        (finishDocking (animateDocking (initializeDocking m i) i env) i) i =
        some false
    ∧ styleAt
        (finishDocking (animateDocking (initializeDocking m i) i env) i) i =
        some []
    ∧ styleAt
        (finishDocking (animateDocking (initializeDocking m i) i env) i) i =
        some e.internalStyle
    ∧ controlsShownAt
        (finishDocking (animateDocking (initializeDocking m i) i env) i) i =
        some true
    ∧ dockingStateAt
        (finishDocking (animateDocking (initializeDocking m i) i env) i) i =
        some DockingState.INLINE
    ∧ (finishDocking (animateDocking (initializeDocking m i) i env) i).dockedVideo
        = none := by
  have he1 : entryAt (initializeDocking m i) i =
      some (initializeDockingEntry e) := by
    rw [initializeDocking, entryAt_registerDocked]
    exact entryAt_updateEntry_self he _
  have h1 : dockingStateAt (initializeDocking m i) i =
      some DockingState.DOCKING := by
    simp [dockingStateAt, he1, initializeDockingEntry]
  have h2 : dockingStateAt (animateDocking (initializeDocking m i) i env) i =
      some DockingState.DOCKED := by
    rw [animateDocking, he1]
    dsimp only
    rw [if_pos (by
      exact (dockTransformScale_eq_dock_scale_iff _ _ (by exact hh)).mpr
        (by exact hvh))]
    exact (dragStep_after_install _ i env _ (entryAt_setEntry_self he1 _)
      (by exact hl) (by exact hint) (by exact hvh) (by exact rfl)
      (by exact rfl) (by exact rfl) (by exact hdism)).1
  obtain ⟨e2, he2, -⟩ := Option.map_eq_some'.mp h2
  have hfin := finishDocking_projections
    (animateDocking (initializeDocking m i) i env) i e2 he2
  exact ⟨h1, h2, hfin.1, hfin.2.1, by rw [hstyle]; exact hfin.2.1,
    hfin.2.2.1, hfin.2.2.2.1, hfin.2.2.2.2⟩

/-- Witness for C8 on a concrete inline entry with empty style baseline. -/
theorem undock_round_trip_witness :
    dockingStateAt (initializeDocking roundTripManager 0) 0 =
        some DockingState.DOCKING
    ∧ dockingStateAt
        (animateDocking (initializeDocking roundTripManager 0) 0 scenarioEnv) 0 =
        some DockingState.DOCKED
    ∧ dockClassAt
        (finishDocking
          (animateDocking (initializeDocking roundTripManager 0) 0 scenarioEnv)
          0) 0 = some false
    ∧ styleAt
        (finishDocking
          (animateDocking (initializeDocking roundTripManager 0) 0 scenarioEnv)
          0) 0 = some []
    ∧ styleAt
        (finishDocking
          (animateDocking (initializeDocking roundTripManager 0) 0 scenarioEnv)
          0) 0 = some roundTripEntry.internalStyle
    ∧ controlsShownAt
        (finishDocking
          (animateDocking (initializeDocking roundTripManager 0) 0 scenarioEnv)
          0) 0 = some true
    ∧ dockingStateAt
        (finishDocking
          (animateDocking (initializeDocking roundTripManager 0) 0 scenarioEnv)
          0) 0 = some DockingState.INLINE
    ∧ (finishDocking
        (animateDocking (initializeDocking roundTripManager 0) 0 scenarioEnv)
        0).dockedVideo = none :=
  undock_round_trip roundTripManager 0 scenarioEnv roundTripEntry
    rfl rfl rfl rfl rfl
    (by norm_num [roundTripEntry, freeTickEntry, mkEntry]) rfl

/-- Witness for the amended C9 on the concrete skipped-registration
manager. -/
theorem unregistered_lookup_fails_witness :
    (∃ f, getPlayingStateOf skippedOnlyManager 0 = Except.error f)
    ∧ (∃ f, userInteractedWithAutoPlayOf skippedOnlyManager 0 = Except.error f)
    ∧ (skippedOnlyManager.entries = none →
        getPlayingStateOf skippedOnlyManager 0 =
          Except.error LookupFailure.nullTypeError)
    ∧ (∀ l, skippedOnlyManager.entries = some l →
        getPlayingStateOf skippedOnlyManager 0 = Except.error
          (LookupFailure.devAssert
            "video is not registered to this video manager")
        ∧ userInteractedWithAutoPlayOf skippedOnlyManager 0 = Except.error
          (LookupFailure.devAssert
            "video is not registered to this video manager")) :=
  unregistered_lookup_fails skippedOnlyManager 0 rfl

end VideoManagerImpl
